import Mathlib

/-!
Verification development for the zync backend core (src-tauri).

This file shallowly embeds the parts of the code that the checked
properties talk about:

* the virtual ssh-agent request handler (`src/ssh.rs`, `handle_agent_request`)
  and the key registration in `SshManager::authenticate_session`;
* the PTY multiplexer session table (`src/pty.rs`): `create_local_session`,
  `create_remote_session`, `close_by_connection`, and `ssh_disconnect`
  from `src/commands.rs`;
* the filesystem listings (`src/fs.rs`): `list_local` and `list_remote`;
* the SFTP transfer engine (`src/commands.rs`): the event traces produced
  by `sftp_put`, `sftp_get` and `sftp_copy_to_server`, the process-wide
  cancellation table, and `sftp_cancel_transfer`.

Shared mutable maps (`HashMap` behind a mutex) are modelled as association
lists with HashMap semantics (unique keys; `insert` replaces, `remove`
deletes the key).  Environment effects (disk reads, network, the SSH
library) are inputs of the embedded functions: each fallible library call
is a parameter carrying its outcome, and the time-based progress emit
rate limiter is a boolean per chunk saying whether the 100/200 ms window
had elapsed.
-/

namespace Zync

/-! ### Association-list maps with HashMap semantics -/

/-- Lookup in a map: value of the first entry with the given key
(`HashMap::get`). -/
def lookupTable {α : Type} (t : List (String × α)) (k : String) : Option α :=
  (t.find? (fun p => p.1 = k)).map (fun p => p.2)

/-- Remove a key from a map (`HashMap::remove`, unique keys). -/
def eraseTable {α : Type} (t : List (String × α)) (k : String) : List (String × α) :=
  t.filter (fun p => ¬ p.1 = k)

/-- Insert (or replace) a key in a map (`HashMap::insert`). -/
def insertTable {α : Type} (t : List (String × α)) (k : String) (v : α) :
    List (String × α) :=
  (k, v) :: eraseTable t k

/-- `HashMap::contains_key`. -/
def containsKey {α : Type} (t : List (String × α)) (k : String) : Bool :=
  (lookupTable t k).isSome

/-! ### Virtual agent: keys and wire format (`src/ssh.rs`) -/

/-- Bytes of the ASCII string "ssh-ed25519" (the pattern of the
`blob.windows(11)` scan in `handle_agent_request`). -/
def ed25519Name : List Nat := [115, 115, 104, 45, 101, 100, 50, 53, 53, 49, 57]

/-- Bytes of the ASCII string "ssh-rsa". -/
def sshRsaName : List Nat := [115, 115, 104, 45, 114, 115, 97]

/-- Bytes of the ASCII string "ecdsa-sha2-" (algorithm-name stem of ECDSA
public-key blobs). -/
def ecdsaStem : List Nat := [101, 99, 100, 115, 97, 45, 115, 104, 97, 50, 45]

/-- Bytes of the ASCII string "virtual-agent" (the comment the agent
attaches to every advertised identity). -/
def virtualAgentComment : List Nat :=
  [118, 105, 114, 116, 117, 97, 108, 45, 97, 103, 101, 110, 116]

/-- Big-endian 4-byte encoding of a u32 (`u32::to_be_bytes`). -/
def u32be (n : Nat) : List Nat :=
  [n / 2 ^ 24 % 256, n / 2 ^ 16 % 256, n / 2 ^ 8 % 256, n % 256]

/-- SSH wire string: u32 big-endian length then the raw bytes
(the `write_string` helper in `handle_agent_request`). -/
def sshString (s : List Nat) : List Nat := u32be s.length ++ s

/-- Model of `russh_keys::key::KeyPair`: the in-memory private keys held by
the virtual agent, by algorithm.  Only the data that reaches the agent
protocol (the public key material serialized into the blob) is kept. -/
inductive KeyPair where
  | ed25519 (pk : List Nat)
  | rsa (e n : List Nat)
  | ec (curveName point : List Nat)
deriving DecidableEq

/-- `KeyPair::public_key_bytes`: the standard SSH public-key blob.
Ed25519: string "ssh-ed25519" + string key; RSA: string "ssh-rsa" +
mpint e + mpint n (the mpint body bytes are taken as given); ECDSA:
string "ecdsa-sha2-<curve>" + string curve + string point. -/
def KeyPair.public_key_bytes : KeyPair → List Nat
  | .ed25519 pk => sshString ed25519Name ++ sshString pk
  | .rsa e n => sshString sshRsaName ++ sshString e ++ sshString n
  | .ec c p => sshString (ecdsaStem ++ c) ++ sshString c ++ sshString p

/-- Whether the key's algorithm is Ed25519 (the property the spec states
the advertisement filter selects on). -/
def KeyPair.isEd25519 : KeyPair → Bool
  | .ed25519 _ => true
  | _ => false

/-- `blob.windows(11).any(|w| w == b"ssh-ed25519")`: some contiguous
11-byte window of the blob equals the Ed25519 algorithm name.  Windows are
the 11-byte takes at every start position; a take at a position with fewer
than 11 bytes left is shorter than the pattern and never matches, exactly
as `windows` yields no window there. -/
def hasEd25519Window : List Nat → Bool
  | [] => false
  | b :: rest =>
    if List.take 11 (b :: rest) = ed25519Name then true else hasEd25519Window rest

/-- Model of `russh_keys::key::Signature` as serialized by the agent's
SIGN_REQUEST branch. -/
inductive Sig where
  | ed25519 (bytes : List Nat)
  | rsa (hashName bytes : List Nat)
  | ecdsa (algorithm sigBytes : List Nat)
deriving DecidableEq

/-- Signature-blob serialization in the SIGN_REQUEST branch: the
(string algorithm, string signature) pair, by `Signature` variant. -/
def serializeSig : Sig → List Nat
  | .ed25519 b => sshString ed25519Name ++ sshString b
  | .rsa h b => sshString h ++ sshString b
  | .ecdsa a s => sshString a ++ sshString s

/-- The `read_u32` parsing helper: 4 big-endian bytes, or `None` if fewer
than 4 bytes remain. -/
def read_u32 (cursor : List Nat) : Option (Nat × List Nat) :=
  match cursor with
  | b0 :: b1 :: b2 :: b3 :: rest =>
    some (b0 * 2 ^ 24 + b1 * 2 ^ 16 + b2 * 2 ^ 8 + b3, rest)
  | _ => none

/-- The `read_string` parsing helper: u32 length then that many bytes, or
`None` if the cursor is too short. -/
def read_string (cursor : List Nat) : Option (List Nat × List Nat) :=
  match read_u32 cursor with
  | none => none
  | some (len, rest) =>
    if rest.length < len then none else some (rest.take len, rest.drop len)

/-- The full `(string key_blob, string data, u32 flags)` parse of a
SIGN_REQUEST body (the `if let (Some, Some, Some)` in the source). -/
def parseSignRequest (cursor : List Nat) :
    Option (List Nat × List Nat × Nat) :=
  match read_string cursor with
  | none => none
  | some (reqBlob, c1) =>
    match read_string c1 with
    | none => none
    | some (data, c2) =>
      match read_u32 c2 with
      | none => none
      | some (flags, _) => some (reqBlob, data, flags)

/-- One advertised identity: (string public-key blob, string comment). -/
def identityEntry (k : KeyPair) : List Nat :=
  sshString k.public_key_bytes ++ sshString virtualAgentComment

/-- The keys the REQUEST_IDENTITIES branch actually advertises: those whose
blob passes the `windows(11)` scan for "ssh-ed25519". -/
def advertisedKeys (keys : List KeyPair) : List KeyPair :=
  keys.filter (fun k => hasEd25519Window k.public_key_bytes)

/-- The REQUEST_IDENTITIES (11) branch: build `[12] ++ u32(keys.len())`,
append the entries of the window-filtered keys, then overwrite bytes 1..5
with the recomputed filtered count (`buf[1..5].copy_from_slice`). -/
def identitiesAnswer (keys : List KeyPair) : List Nat :=
  let buf := 12 :: u32be keys.length ++ ((advertisedKeys keys).map identityEntry).flatten
  let count := (advertisedKeys keys).length
  buf.take 1 ++ u32be count ++ buf.drop 5

/-- The key-search loop of the SIGN_REQUEST branch: first key whose blob
equals the requested blob and whose `sign_detached` succeeds produces
`[14] ++ string(signature blob)`; otherwise the loop falls through to the
FAILURE response `[5]`.  `sign` models `KeyPair::sign_detached`. -/
def signSearch (sign : KeyPair → List Nat → Except Unit Sig)
    (data reqBlob : List Nat) : List KeyPair → List Nat
  | [] => [5]
  | k :: rest =>
    if k.public_key_bytes = reqBlob then
      match sign k data with
      | .ok s => 14 :: sshString (serializeSig s)
      | .error _ => signSearch sign data reqBlob rest
    else signSearch sign data reqBlob rest

/-- `handle_agent_request` (`src/ssh.rs`): empty payload fails; type 11
answers identities; type 13 parses and searches for a signing key; any
other type fails with `[5]`. -/
def handle_agent_request (sign : KeyPair → List Nat → Except Unit Sig)
    (keys : List KeyPair) (payload : List Nat) : List Nat :=
  match payload with
  | [] => [5]
  | msgType :: cursor =>
    if msgType = 11 then identitiesAnswer keys
    else if msgType = 13 then
      match parseSignRequest cursor with
      | none => [5]
      | some (reqBlob, data, _flags) => signSearch sign data reqBlob keys
    else [5]

/-- A signing model that always fails; used only to instantiate concrete
inputs of branches that never call it. -/
def sigNone : KeyPair → List Nat → Except Unit Sig := fun _ _ => .error ()

/-! ### Key registration on connect (`SshManager::authenticate_session`) -/

/-- `AuthMethod` from `src/types.rs` as used by `authenticate_session`. -/
inductive AuthMethod where
  | password (password : String)
  | privateKey (keyPath : String) (passphrase : Option String)
deriving DecidableEq

/-- `SshManager::authenticate_session` (`src/ssh.rs` 276-322), acting on the
process-wide agent key set.  Environment outcomes are parameters:
`readRes` is `std::fs::read_to_string` on the key file, `decodeRes` is
`decode_secret_key`, and `authRes` is the library's
`authenticate_publickey` / `authenticate_password` result (`Ok bool` or a
transport error).  For a private key, the decoded key is pushed into the
agent key set BEFORE public-key authentication is attempted; the final
`if !auth_res` turns a `false` into the error "Authentication failed". -/
def authenticate_session (keys : List KeyPair) (method : AuthMethod)
    (readRes : Except String String) (decodeRes : Except String KeyPair)
    (authRes : Except String Bool) : List KeyPair × Except String Unit :=
  match method with
  | .password _ =>
    (keys,
      match authRes with
      | .error e => .error e
      | .ok true => .ok ()
      | .ok false => .error "Authentication failed")
  | .privateKey _ _ =>
    match readRes with
    | .error e => (keys, .error ("Failed to read private key file: " ++ e))
    | .ok _ =>
      match decodeRes with
      | .error e => (keys, .error ("Failed to decode private key: " ++ e))
      | .ok key =>
        let keys2 := keys ++ [key]
        match authRes with
        | .error e => (keys2, .error e)
        | .ok true => (keys2, .ok ())
        | .ok false => (keys2, .error "Authentication failed")

/-! ### PTY multiplexer (`src/pty.rs`) and disconnect (`src/commands.rs`) -/

/-- A `PtySession` entry of the `PtyManager` map: terminal id, owning
connection id, the variant of the handle (`Local` reader task / `Remote`
driver task), and the task join handle (always populated at creation;
`take()`n on close).  Task handles are identified by a number. -/
structure PtySessionM where
  term_id : String
  connection_id : String
  isRemote : Bool
  taskId : Option Nat
deriving DecidableEq

/-- Outcome of a `create_*_session` call: the session map afterwards, the
returned result, and which side effects happened (shell process spawned,
reader/driver task spawned, freshly opened remote channel closed). -/
structure CreateOutcome where
  sessions : List (String × PtySessionM)
  result : Except String Unit
  spawnedShell : Bool
  spawnedTask : Bool
  closedChannel : Bool

/-- `PtyManager::create_local_session` (`src/pty.rs` 46-191).  Outcomes of
the fallible environment calls are parameters in source order: `openpty`,
`spawn_command`, `try_clone_reader`, `take_writer`.  If the terminal id is
already present the function returns `Ok` at once, spawning nothing. -/
def create_local_session (sessions : List (String × PtySessionM))
    (termId connectionId : String)
    (openptyRes spawnRes cloneReaderRes takeWriterRes : Except String Unit)
    (newTaskId : Nat) : CreateOutcome :=
  if containsKey sessions termId then
    ⟨sessions, .ok (), false, false, false⟩
  else
    match openptyRes with
    | .error e => ⟨sessions, .error ("Failed to open PTY: " ++ e), false, false, false⟩
    | .ok _ =>
      match spawnRes with
      | .error e => ⟨sessions, .error ("Failed to spawn shell: " ++ e), false, false, false⟩
      | .ok _ =>
        match cloneReaderRes with
        | .error e => ⟨sessions, .error ("Failed to clone reader: " ++ e), true, false, false⟩
        | .ok _ =>
          match takeWriterRes with
          | .error e => ⟨sessions, .error ("Failed to take writer: " ++ e), true, false, false⟩
          | .ok _ =>
            ⟨insertTable sessions termId ⟨termId, connectionId, false, some newTaskId⟩,
              .ok (), true, true, false⟩

/-- `PtyManager::create_remote_session` (`src/pty.rs` 194-309).  If the
terminal id already exists, the freshly opened channel is closed and the
call returns `Ok` without requesting a PTY or spawning the driver task.
Otherwise `request_pty` and `request_shell` run (outcome parameters),
then the driver task is spawned and the session inserted. -/
def create_remote_session (sessions : List (String × PtySessionM))
    (termId connectionId : String)
    (requestPtyRes requestShellRes : Except String Unit)
    (newTaskId : Nat) : CreateOutcome :=
  if containsKey sessions termId then
    ⟨sessions, .ok (), false, false, true⟩
  else
    match requestPtyRes with
    | .error e => ⟨sessions, .error ("Failed to request PTY: " ++ e), false, false, false⟩
    | .ok _ =>
      match requestShellRes with
      | .error e => ⟨sessions, .error ("Failed to request shell: " ++ e), false, false, false⟩
      | .ok _ =>
        ⟨insertTable sessions termId ⟨termId, connectionId, true, some newTaskId⟩,
          .ok (), false, true, false⟩

/-- `PtyManager::close_by_connection` (`src/pty.rs` 380-410): collect the
ids of all sessions owned by the connection, then remove each from the
map and abort its (reader or driver) task handle if present.  Returns the
map afterwards and the list of aborted task ids. -/
def close_by_connection (sessions : List (String × PtySessionM))
    (connectionId : String) : List (String × PtySessionM) × List Nat :=
  let idsToRemove :=
    (sessions.filter (fun p => p.2.connection_id = connectionId)).map (fun p => p.1)
  idsToRemove.foldl
    (fun acc id =>
      match lookupTable acc.1 id with
      | none => acc
      | some s => (eraseTable acc.1 id, acc.2 ++ s.taskId.toList))
    (sessions, [])

/-- A `ConnectionHandle` entry of the registry (`src/commands.rs` 82-87):
whether the optional SSH session and SFTP session are present, and the
detected OS. -/
structure ConnHandleM where
  hasSession : Bool
  hasSftp : Bool
  detectedOs : Option String
deriving DecidableEq

/-- `ssh_disconnect` (`src/commands.rs` 397-412): first
`close_by_connection`, then remove the connection entry.  Returns the
connection map, the terminal map and the aborted task ids. -/
def ssh_disconnect (connections : List (String × ConnHandleM))
    (sessions : List (String × PtySessionM)) (id : String) :
    List (String × ConnHandleM) × List (String × PtySessionM) × List Nat :=
  let closed := close_by_connection sessions id
  (eraseTable connections id, closed.1, closed.2)

/-- The `get_sftp` helper (`src/commands.rs` 532-538): absent connection id
fails with "Connection {id} not found"; a present connection without an
SFTP session fails with "SFTP not initialized". -/
def get_sftp (connections : List (String × ConnHandleM)) (id : String) :
    Except String Unit :=
  match lookupTable connections id with
  | none => .error ("Connection " ++ id ++ " not found")
  | some c => if c.hasSftp then .ok () else .error "SFTP not initialized"

/-- The connection lookup of `terminal_create`'s remote branch
(`src/commands.rs` 499-504): `get` then `and_then(session)`, with a single
not-found error message for both failure shapes. -/
def terminal_create_lookup (connections : List (String × ConnHandleM))
    (id : String) : Except String Unit :=
  match lookupTable connections id with
  | none => .error ("Connection " ++ id ++ " not found or session closed")
  | some c =>
    if c.hasSession then .ok ()
    else .error ("Connection " ++ id ++ " not found or session closed")

/-! ### Filesystem listings (`src/fs.rs`) -/

/-- Byte-wise lexicographic comparison of byte sequences: the order of
Rust's `Ord` on `String`/`[u8]` (shorter strict prefixes sort first). -/
def bytesCmp : List Nat → List Nat → Ordering
  | [], [] => .eq
  | [], _ :: _ => .lt
  | _ :: _, [] => .gt
  | a :: xs, b :: ys =>
    if a < b then .lt else if b < a then .gt else bytesCmp xs ys

/-- A returned `FileEntry` (`src/fs.rs` 10-17).  Names are byte sequences
(Rust `String` bytes); the `r#type` field is "d" or "-"; `permissions`
keeps the `mode & 0o777` value underlying the octal string. -/
structure FileEntryM where
  name : List Nat
  ftype : String
  size : Nat
  lastModified : Nat
  permissions : Nat
deriving DecidableEq

/-- The sort comparator of `list_local` / `list_remote` (`src/fs.rs` 80-88,
138-146): directories first, then lexicographic by name. -/
def fileCmp (a b : FileEntryM) : Ordering :=
  if a.ftype = "d" ∧ ¬ b.ftype = "d" then .lt
  else if ¬ a.ftype = "d" ∧ b.ftype = "d" then .gt
  else bytesCmp a.name b.name

/-- `Vec::sort_by` with `fileCmp`: a stable sort whose output is ordered by
the comparator, modelled by `List.mergeSort` (also a stable merge sort)
with the relation "comparator does not say Greater". -/
def sortEntries (l : List FileEntryM) : List FileEntryM :=
  l.mergeSort (fun a b => fileCmp a b ≠ .gt)

/-- A raw local directory entry as `read_dir` + `metadata` deliver it:
name bytes, directory flag, length, modification time (ms), Unix mode. -/
structure LocalRawEntry where
  name : List Nat
  isDir : Bool
  size : Nat
  modifiedMs : Nat
  mode : Nat
deriving DecidableEq

/-- The `FileEntry` built for one local entry (`src/fs.rs` 46-77). -/
def localEntry (e : LocalRawEntry) : FileEntryM :=
  { name := e.name
    ftype := if e.isDir then "d" else "-"
    size := e.size
    lastModified := e.modifiedMs
    permissions := e.mode &&& 511 }

/-- `FileSystem::list_local` on the successfully read raw entries of the
directory: build entries, then sort directories first / lexicographic. -/
def list_local (entries : List LocalRawEntry) : List FileEntryM :=
  sortEntries (entries.map localEntry)

/-- A raw remote entry as SFTP `read_dir` delivers it: name bytes and the
optional attributes used by `list_remote`. -/
structure RemoteRawEntry where
  name : List Nat
  size : Option Nat
  mtime : Option Nat
  permissions : Option Nat
deriving DecidableEq

/-- Name bytes of ".". -/
def dotName : List Nat := [46]

/-- Name bytes of "..". -/
def dotdotName : List Nat := [46, 46]

/-- The `FileEntry` built for one remote entry (`src/fs.rs` 108-134):
attributes default to 0, directory detected via permission bit 0o040000,
mtime seconds scaled to ms, permissions masked to 0o777. -/
def remoteEntry (e : RemoteRawEntry) : FileEntryM :=
  { name := e.name
    ftype := if (e.permissions.getD 0) &&& 16384 ≠ 0 then "d" else "-"
    size := e.size.getD 0
    lastModified := (e.mtime.getD 0) * 1000
    permissions := (e.permissions.getD 0) &&& 511 }

/-- `FileSystem::list_remote` on the raw entries: skip "." and "..", build
entries, then the same sort as the local listing. -/
def list_remote (entries : List RemoteRawEntry) : List FileEntryM :=
  sortEntries
    (((entries.filter (fun e => ¬ (e.name = dotName ∨ e.name = dotdotName))).map
      remoteEntry))

/-! ### SFTP transfer engine (`src/commands.rs`)

The three transfer commands are modelled by the sequence of events they
emit (`transfer-progress`, `transfer-success`, `transfer-cancelled`,
`transfer-error`) and by their effect on the process-wide cancellation
table `transfers : transfer_id -> AtomicBool`.

The chunk pipelines are driven by the environment: every file of the
walked source tree, in walk order, is a `FileRun`; every received chunk is
a `ChunkStep` carrying the chunk size, whether the cancellation flag was
observed set at that chunk boundary, whether the SFTP/local write of the
chunk failed, and whether the 100/200 ms emit rate limiter had elapsed
(`emitDue`).  Reader-side failures arrive through the bounded channel as
`ChunkItem.readErr` with the message the reader task formatted. -/

/-- An emitted transfer event. -/
inductive TransferEvent where
  | progress (id : String) (transferred : Nat) (total : Nat)
  | success (id : String) (destinationConnectionId : String)
  | cancelled (id : String) (destinationConnectionId : String)
  | error (id : String) (errorMsg : String)
deriving DecidableEq

/-- One chunk received from the reader task of a transfer pipeline. -/
structure ChunkStep where
  size : Nat
  cancelSeen : Bool
  writeErr : Option String
  emitDue : Bool
deriving DecidableEq

/-- One item received over the bounded channel: a chunk, or the reader's
error message. -/
inductive ChunkItem where
  | chunk (c : ChunkStep)
  | readErr (msg : String)
deriving DecidableEq

/-- One file of the walked source tree: the (already formatted) message of
a failed open/create of its endpoints if one failed, the result of the
cancellation check `copy_recursive_optimized` performs on entering the
path, and the chunk stream. -/
structure FileRun where
  openErr : Option String
  cancelAtEntry : Bool
  items : List ChunkItem
deriving DecidableEq

/-- The per-file consumer loop shared by the three pipelines
(`upload_recursive` 1513-1533, `download_recursive` 1926-1946,
`copy_recursive_optimized` 1824-1843): receive a chunk (a reader error
aborts with its message), check the cancellation flag (abort with
"Cancelled"), write the chunk (a failure aborts with `wPre ++ msg`), add
the chunk size to the running `transferred` count, and emit a progress
event if the rate limiter allows.  Returns the final count or the error,
and the emitted events. -/
def chunkLoop (tid : String) (total : Nat) (wPre : String) :
    Nat → List ChunkItem → Except String Nat × List TransferEvent
  | acc, [] => (.ok acc, [])
  | _acc, .readErr m :: _ => (.error m, [])
  | acc, .chunk c :: rest =>
    if c.cancelSeen then (.error "Cancelled", [])
    else
      match c.writeErr with
      | some m => (.error (wPre ++ m), [])
      | none =>
        let acc2 := acc + c.size
        let here := if c.emitDue then [TransferEvent.progress tid acc2 total] else []
        let tail := chunkLoop tid total wPre acc2 rest
        (tail.1, here ++ tail.2)

/-- The files of an upload (`upload_recursive`): open the remote file
(its failure message aborts), then run the chunk pipeline; continue with
the remaining files on success. -/
def putFiles (tid : String) (total : Nat) :
    Nat → List FileRun → Except String Nat × List TransferEvent
  | acc, [] => (.ok acc, [])
  | acc, f :: rest =>
    match f.openErr with
    | some m => (.error m, [])
    | none =>
      match chunkLoop tid total "SFTP write failed: " acc f.items with
      | (.error e, evs) => (.error e, evs)
      | (.ok acc2, evs) =>
        let tail := putFiles tid total acc2 rest
        (tail.1, evs ++ tail.2)

/-- The files of a download (`download_recursive`): create the local file
and open the remote file (a failure message aborts), then the chunk
pipeline with the local write error text. -/
def getFiles (tid : String) (total : Nat) :
    Nat → List FileRun → Except String Nat × List TransferEvent
  | acc, [] => (.ok acc, [])
  | acc, f :: rest =>
    match f.openErr with
    | some m => (.error m, [])
    | none =>
      match chunkLoop tid total "Local write failed: " acc f.items with
      | (.error e, evs) => (.error e, evs)
      | (.ok acc2, evs) =>
        let tail := getFiles tid total acc2 rest
        (tail.1, evs ++ tail.2)

/-- The files of a server-to-server copy (`copy_recursive_optimized`):
the cancellation flag is also checked on entering each path (abort with
"Cancelled"); after a file's chunk loop finishes, one progress event with
the exact running count is emitted unconditionally (lines 1845-1850). -/
def copyFiles (tid : String) (total : Nat) :
    Nat → List FileRun → Except String Nat × List TransferEvent
  | acc, [] => (.ok acc, [])
  | acc, f :: rest =>
    if f.cancelAtEntry then (.error "Cancelled", [])
    else
      match f.openErr with
      | some m => (.error m, [])
      | none =>
        match chunkLoop tid total "SFTP destination write failed: " acc f.items with
        | (.error e, evs) => (.error e, evs)
        | (.ok acc2, evs) =>
          let tail := copyFiles tid total acc2 rest
          (tail.1, evs ++ [TransferEvent.progress tid acc2 total] ++ tail.2)

/-- The terminal emit of `sftp_put` (1623-1637) and `sftp_get`
(2050-2064): success event on `Ok`, otherwise one error event whose
message is "Cancelled" exactly when the run was cancelled. -/
def finishEvents (tid dst : String) : Except String Nat → List TransferEvent
  | .ok _ => [.success tid dst]
  | .error e =>
    if e = "Cancelled" then [.error tid "Cancelled"] else [.error tid e]

/-- The terminal emit of `sftp_copy_to_server` (1728-1756): on success a
final progress event with transferred = 100 and total = 100 ("Make sure
it finishes") followed by the success event; on cancellation a
`transfer-cancelled` event (success-shaped payload) followed by the error
event with message "Cancelled"; otherwise the error event. -/
def copyFinish (tid dstId : String) : Except String Nat → List TransferEvent
  | .ok _ => [.progress tid 100 100, .success tid dstId]
  | .error e =>
    if e = "Cancelled" then [.cancelled tid dstId, .error tid "Cancelled"]
    else [.error tid e]

/-- The events of one `sftp_put` transfer (1559-1641).  `connectionId` is
the destination connection; the "local" branch performs a plain
`std::fs::copy` whose outcome is `localRes` and emits no progress.  On
the remote branch `sftpRes` is the `get_sftp` lookup outcome; the
pre-computed tree size is replaced by 1 when it is 0, an initial progress
event with transferred = 0 is emitted, and the upload runs. -/
def putTrace (tid connectionId : String) (localRes : Except String Unit)
    (sftpRes : Except String Unit) (size : Nat) (files : List FileRun) :
    List TransferEvent :=
  if connectionId = "local" then
    match localRes with
    | .ok _ => finishEvents tid connectionId (.ok 0)
    | .error e => finishEvents tid connectionId (.error e)
  else
    match sftpRes with
    | .error e => finishEvents tid connectionId (.error e)
    | .ok _ =>
      let total := if size = 0 then 1 else size
      let run := putFiles tid total 0 files
      .progress tid 0 total :: run.2 ++ finishEvents tid connectionId run.1

/-- The events of one `sftp_get` transfer (1995-2068): `get_sftp` outcome,
zero-size replacement, initial progress event, download, terminal emit
with destination connection id "local". -/
def getTrace (tid : String) (sftpRes : Except String Unit) (size : Nat)
    (files : List FileRun) : List TransferEvent :=
  match sftpRes with
  | .error e => finishEvents tid "local" (.error e)
  | .ok _ =>
    let total := if size = 0 then 1 else size
    let run := getFiles tid total 0 files
    .progress tid 0 total :: run.2 ++ finishEvents tid "local" run.1

/-- The events of one `sftp_copy_to_server` transfer (1656-1758): source
`get_sftp` outcome, zero-size replacement, initial progress event, early
cancellation check, destination `get_sftp` outcome, the copy run, and the
terminal emit `copyFinish`. -/
def copyTrace (tid dstId : String) (srcSftpRes : Except String Unit)
    (size : Nat) (cancelledEarly : Bool) (dstSftpRes : Except String Unit)
    (files : List FileRun) : List TransferEvent :=
  match srcSftpRes with
  | .error e => copyFinish tid dstId (.error e)
  | .ok _ =>
    let total := if size = 0 then 1 else size
    let initEv := TransferEvent.progress tid 0 total
    if cancelledEarly then initEv :: copyFinish tid dstId (.error "Cancelled")
    else
      match dstSftpRes with
      | .error e => initEv :: copyFinish tid dstId (.error e)
      | .ok _ =>
        let run := copyFiles tid total 0 files
        initEv :: run.2 ++ copyFinish tid dstId run.1

/-- Effect of `sftp_put` / `sftp_copy_to_server` on the cancellation
table: the transfer id is registered (with a fresh unset flag) when the
transfer starts and removed again when the result is in, on every path
(1578-1582 with 1617-1621; 1680-1683 with 1722-1726). -/
def registerAndCleanup (transfers : List (String × Bool)) (tid : String) :
    List (String × Bool) :=
  eraseTable (insertTable transfers tid false) tid

/-- Effect of `sftp_get` on the cancellation table: the id is registered
only after the `get_sftp` lookup succeeds (2024-2030) and removed after
the download returns (2041-2045); if the lookup fails the table is left
untouched. -/
def getTableAfter (transfers : List (String × Bool)) (tid : String)
    (sftpOk : Bool) : List (String × Bool) :=
  if sftpOk then eraseTable (insertTable transfers tid false) tid else transfers

/-- `sftp_cancel_transfer` (1644-1654): look the id up; if present, store
`true` into its atomic flag; always return `Ok`. -/
def sftp_cancel_transfer (transfers : List (String × Bool))
    (transferId : String) : List (String × Bool) × Except String Unit :=
  match lookupTable transfers transferId with
  | none => (transfers, .ok ())
  | some _ =>
    (transfers.map (fun p => if p.1 = transferId then (p.1, true) else p), .ok ())

/-! ### Observations on event traces -/

/-- The `transferred` values of the progress events of a trace, in order. -/
def pvals (trace : List TransferEvent) : List Nat :=
  trace.filterMap (fun e =>
    match e with
    | .progress _ t _ => some t
    | _ => none)

/-- `lbChain a l`: every element of `l` is reached from `a` by
non-decreasing steps. -/
def lbChain : Nat → List Nat → Bool
  | _, [] => true
  | a, x :: l => Nat.ble a x && lbChain x l

/-- A list of naturals is monotonically non-decreasing. -/
def nondec : List Nat → Bool
  | [] => true
  | x :: l => lbChain x l

/-- Whether an event is the terminal `transfer-success` or
`transfer-error` of the given transfer id. -/
def isTerminalFor (tid : String) : TransferEvent → Bool
  | .success i _ => i = tid
  | .error i _ => i = tid
  | _ => false

/-- The terminal (success/error) events a trace carries for an id. -/
def terminalEvents (tid : String) (trace : List TransferEvent) :
    List TransferEvent :=
  trace.filter (isTerminalFor tid)

/-- Every progress event of the trace carries the given total. -/
def allProgressTotalEq (n : Nat) (trace : List TransferEvent) : Bool :=
  trace.all (fun e =>
    match e with
    | .progress _ _ t => t = n
    | _ => true)

/-- Every progress event of the trace carries a total of at least 1. -/
def allProgressTotalGE1 (trace : List TransferEvent) : Bool :=
  trace.all (fun e =>
    match e with
    | .progress _ _ t => Nat.ble 1 t
    | _ => true)

/-- Sum of the chunk sizes of a chunk stream (readErr items carry no
bytes). -/
def itemsSum (items : List ChunkItem) : Nat :=
  (items.map (fun i =>
    match i with
    | .chunk c => c.size
    | .readErr _ => 0)).sum

/-- Sum of the byte sizes of the source files of a run. -/
def filesSum (files : List FileRun) : Nat :=
  (files.map (fun f => itemsSum f.items)).sum

/-- A chunk stream with no injected failure: every item is a chunk, never
cancelled, whose write succeeded. -/
def cleanItems (items : List ChunkItem) : Bool :=
  items.all (fun i =>
    match i with
    | .chunk c => !c.cancelSeen && c.writeErr.isNone
    | .readErr _ => false)

/-- A run with no injected failure on any file. -/
def cleanFiles (files : List FileRun) : Bool :=
  files.all (fun f => f.openErr.isNone && !f.cancelAtEntry && cleanItems f.items)

/-- The final running count of a pipeline run, as a one-element list when
the run succeeded (used to bound the progress values it emitted). -/
def okTail : Except String Nat → List Nat
  | .ok a => [a]
  | .error _ => []

/-! ### Map lemmas -/

theorem lookupTable_eraseTable_self {α : Type} (t : List (String × α)) (k : String) :
    lookupTable (eraseTable t k) k = none := by
  induction t with
  | nil => rfl
  | cons p rest ih =>
    by_cases h : p.1 = k
    · have he : eraseTable (p :: rest) k = eraseTable rest k := by
        simp [eraseTable, List.filter_cons, h]
      rw [he]; exact ih
    · have he : eraseTable (p :: rest) k = p :: eraseTable rest k := by
        simp [eraseTable, List.filter_cons, h]
      rw [he]
      simp only [lookupTable, List.find?_cons] at ih ⊢
      simp [h, ih]

theorem eraseTable_of_not_mem {α : Type} (t : List (String × α)) (k : String)
    (h : k ∉ t.map (fun p => p.1)) : eraseTable t k = t := by
  rw [eraseTable, List.filter_eq_self]
  intro a ha
  simp only [decide_eq_true_eq]
  intro hk
  exact h (hk ▸ List.mem_map_of_mem (fun p => p.1) ha)

theorem lookupTable_registerAndCleanup (transfers : List (String × Bool))
    (tid : String) : lookupTable (registerAndCleanup transfers tid) tid = none := by
  simpa [registerAndCleanup] using
    lookupTable_eraseTable_self (insertTable transfers tid false) tid

/-- Keys are unchanged by the flag-setting map of `sftp_cancel_transfer`. -/
theorem cancel_map_keys (t : List (String × Bool)) (tid : String) :
    ((t.map (fun p => if p.1 = tid then (p.1, true) else p)).map (fun p => p.1)) =
      t.map (fun p => p.1) := by
  induction t with
  | nil => rfl
  | cons p rest ih =>
    by_cases h : p.1 = tid <;> simp [h, ih]

/-! ### C10 -/

/-- C10: `sftp_cancel_transfer` always returns `Ok`, including for an
unregistered transfer id; in that case the cancellation table is left
unchanged, and in every case the set of registered ids is unchanged. -/
theorem C10_cancel_transfer_total_noop :
    ∀ (transfers : List (String × Bool)) (tid : String),
      (sftp_cancel_transfer transfers tid).2 = .ok () ∧
      ((sftp_cancel_transfer transfers tid).1.map (fun p => p.1) =
        transfers.map (fun p => p.1)) ∧
      (lookupTable transfers tid = none →
        (sftp_cancel_transfer transfers tid).1 = transfers) := by
  intro transfers tid
  cases h : lookupTable transfers tid with
  | none => simp [sftp_cancel_transfer, h]
  | some v =>
    refine ⟨by simp [sftp_cancel_transfer, h], ?_, ?_⟩
    · simpa [sftp_cancel_transfer, h] using cancel_map_keys transfers tid
    · intro hnone
      exact absurd hnone (by simp)

/-- C10 witness: cancelling the unknown id "t2" on a table holding only
"t1" returns `Ok` and leaves the table unchanged. -/
theorem C10_witness :
    (sftp_cancel_transfer [("t1", false)] "t2").2 = .ok () ∧
      ((sftp_cancel_transfer [("t1", false)] "t2").1.map (fun p => p.1) =
        [("t1", false)].map (fun p => p.1)) ∧
      (sftp_cancel_transfer [("t1", false)] "t2").1 = [("t1", false)] := by
  obtain ⟨h1, h2, h3⟩ := C10_cancel_transfer_total_noop [("t1", false)] "t2"
  exact ⟨h1, h2, h3 (by decide)⟩

/-! ### C5 -/

/-- C5: creating a terminal whose id already exists in the session map is
a no-op: both `create_local_session` and `create_remote_session` return
`Ok`, leave the map unchanged, spawn no shell and no task, and the remote
variant closes the freshly opened, unused channel. -/
theorem C5_terminal_create_idempotent :
    ∀ (sessions : List (String × PtySessionM)) (termId connectionId : String)
      (openptyRes spawnRes cloneReaderRes takeWriterRes : Except String Unit)
      (requestPtyRes requestShellRes : Except String Unit) (n m : Nat),
      containsKey sessions termId = true →
      create_local_session sessions termId connectionId openptyRes spawnRes
          cloneReaderRes takeWriterRes n =
        ⟨sessions, .ok (), false, false, false⟩ ∧
      create_remote_session sessions termId connectionId requestPtyRes
          requestShellRes m =
        ⟨sessions, .ok (), false, false, true⟩ := by
  intro sessions termId connectionId o s cr tw rp rs n m h
  constructor
  · simp [create_local_session, h]
  · simp [create_remote_session, h]

/-- C5 witness: with terminal "t1" already present, both creation calls
at id "t1" return the untouched map, `Ok`, and no side effect but the
remote channel close. -/
theorem C5_witness :
    containsKey [("t1", (⟨"t1", "local", false, some 0⟩ : PtySessionM))] "t1" = true ∧
      create_local_session [("t1", ⟨"t1", "local", false, some 0⟩)] "t1" "local"
          (.ok ()) (.ok ()) (.ok ()) (.ok ()) 7 =
        ⟨[("t1", ⟨"t1", "local", false, some 0⟩)], .ok (), false, false, false⟩ ∧
      create_remote_session [("t1", ⟨"t1", "local", false, some 0⟩)] "t1" "c9"
          (.ok ()) (.ok ()) 8 =
        ⟨[("t1", ⟨"t1", "local", false, some 0⟩)], .ok (), false, false, true⟩ := by
  refine ⟨by decide, ?_, ?_⟩
  · exact (C5_terminal_create_idempotent [("t1", ⟨"t1", "local", false, some 0⟩)]
      "t1" "local" (.ok ()) (.ok ()) (.ok ()) (.ok ()) (.ok ()) (.ok ()) 7 8 (by decide)).1
  · exact (C5_terminal_create_idempotent [("t1", ⟨"t1", "local", false, some 0⟩)]
      "t1" "c9" (.ok ()) (.ok ()) (.ok ()) (.ok ()) (.ok ()) (.ok ()) 7 8 (by decide)).2

/-! ### C3 -/

/-- C3 counterexample: with an empty agent key set, a `PrivateKey`
authentication whose key file reads and decodes fine but whose
`authenticate_publickey` reports no success leaves the key IN the key set
(the set is no longer empty) even though the call fails — contradicting
the claim that the key is added only when authentication succeeds and
that the set is unchanged on failure. -/
theorem C3_counterexample :
    (authenticate_session [] (.privateKey "/k" none) (.ok "data")
        (.ok (KeyPair.ed25519 [1])) (.ok false)).1 ≠ ([] : List KeyPair) ∧
      (authenticate_session [] (.privateKey "/k" none) (.ok "data")
        (.ok (KeyPair.ed25519 [1])) (.ok false)).2 =
        .error "Authentication failed" := by
  constructor
  · decide
  · rfl

/-- C3 (amended): for `PrivateKey` authentication the decoded key is
appended to the process-wide agent key set BEFORE public-key
authentication is attempted, so it is in the set regardless of the
authentication outcome; when the library reports no success the call
still fails with "Authentication failed", and the key set is left
unchanged only when reading or decoding the key file fails. -/
theorem C3_key_added_before_auth :
    ∀ (keys : List KeyPair) (p : String) (pp : Option String) (d : String)
      (key : KeyPair) (authRes : Except String Bool)
      (readE decodeE : String) (decodeRes : Except String KeyPair)
      (readRes : Except String String),
      (authenticate_session keys (.privateKey p pp) (.ok d) (.ok key) authRes).1 =
        keys ++ [key] ∧
      (authenticate_session keys (.privateKey p pp) (.ok d) (.ok key) (.ok false)).2 =
        .error "Authentication failed" ∧
      (authenticate_session keys (.privateKey p pp) (.ok d) (.ok key) (.ok true)).2 =
        .ok () ∧
      (authenticate_session keys (.privateKey p pp) (.error readE) decodeRes authRes).1 =
        keys ∧
      (authenticate_session keys (.privateKey p pp) readRes (.error decodeE) authRes).1 =
        keys := by
  intro keys p pp d key authRes readE decodeE decodeRes readRes
  refine ⟨?_, rfl, rfl, rfl, ?_⟩
  · cases authRes with
    | ok b => cases b <;> rfl
    | error e => rfl
  · cases readRes <;> rfl

/-! ### Agent lemmas -/

/-- The count-overwrite of `identitiesAnswer` produces exactly the
response type byte, the filtered count, and the filtered entries. -/
theorem identitiesAnswer_eq (keys : List KeyPair) :
    identitiesAnswer keys =
      12 :: u32be (advertisedKeys keys).length ++
        ((advertisedKeys keys).map identityEntry).flatten := by
  simp [identitiesAnswer, u32be]

theorem signSearch_eq_five_of_no_match
    (sign : KeyPair → List Nat → Except Unit Sig) (data blob : List Nat) :
    ∀ keys : List KeyPair, (∀ k ∈ keys, ¬ k.public_key_bytes = blob) →
      signSearch sign data blob keys = [5] := by
  intro keys
  induction keys with
  | nil => intro _; rfl
  | cons k rest ih =>
    intro h
    have hk : ¬ k.public_key_bytes = blob := h k (by simp)
    simp only [signSearch]
    rw [if_neg hk]
    exact ih (fun x hx => h x (by simp [hx]))

theorem signSearch_ne_nil (sign : KeyPair → List Nat → Except Unit Sig)
    (data blob : List Nat) :
    ∀ keys : List KeyPair, signSearch sign data blob keys ≠ [] := by
  intro keys
  induction keys with
  | nil => simp [signSearch]
  | cons k rest ih =>
    simp only [signSearch]
    by_cases hk : k.public_key_bytes = blob
    · rw [if_pos hk]
      cases sign k data <;> simp
      exact ih
    · rw [if_neg hk]; exact ih

/-- Every Ed25519 key's public blob passes the `windows(11)` scan: the
blob starts with the length prefix `[0,0,0,11]` followed by the bytes of
"ssh-ed25519" themselves. -/
theorem hasEd25519Window_ed25519 (pk : List Nat) :
    hasEd25519Window (KeyPair.public_key_bytes (.ed25519 pk)) = true := by
  simp [KeyPair.public_key_bytes, sshString, ed25519Name, u32be, hasEd25519Window]

/-! ### C4 -/

/-- C4 counterexample: the advertisement filter is a byte-window scan of
the blob, not an algorithm check.  The RSA key whose modulus bytes equal
the ASCII of "ssh-ed25519" is not an Ed25519 key, yet REQUEST_IDENTITIES
advertises it: the answer carries count 1 and the RSA key's entry, while
the set of stored keys of Ed25519 algorithm is empty — so the answer does
not advertise exactly the Ed25519-algorithm keys. -/
theorem C4_counterexample :
    (KeyPair.rsa [1] ed25519Name).isEd25519 = false ∧
      ([KeyPair.rsa [1] ed25519Name].filter (fun k => k.isEd25519)) = [] ∧
      handle_agent_request sigNone [KeyPair.rsa [1] ed25519Name] [11] =
        12 :: u32be 1 ++ identityEntry (KeyPair.rsa [1] ed25519Name) := by
  refine ⟨rfl, rfl, ?_⟩
  decide

/-- C4 (amended): for every state of the agent key set, REQUEST_IDENTITIES
returns an IDENTITIES_ANSWER (type byte 12) advertising exactly those
stored keys whose public-key blob contains the bytes of "ssh-ed25519" as
a contiguous 11-byte window — this includes every Ed25519 key, but can
also include keys of other algorithms whose blob happens to contain that
byte pattern — each as a (public-key blob, "virtual-agent") pair, and the
leading u32 count field equals the number of advertised entries. -/
theorem C4_identities_window_filter :
    ∀ (sign : KeyPair → List Nat → Except Unit Sig) (keys : List KeyPair)
      (rest : List Nat),
      handle_agent_request sign keys (11 :: rest) =
        12 :: u32be (advertisedKeys keys).length ++
          ((advertisedKeys keys).map identityEntry).flatten ∧
      (∀ pk, hasEd25519Window (KeyPair.public_key_bytes (.ed25519 pk)) = true) ∧
      (∀ k, k ∈ advertisedKeys keys ↔
        k ∈ keys ∧ hasEd25519Window k.public_key_bytes = true) := by
  intro sign keys rest
  refine ⟨?_, hasEd25519Window_ed25519, ?_⟩
  · simpa [handle_agent_request] using identitiesAnswer_eq keys
  · intro k
    simp [advertisedKeys, List.mem_filter]

/-! ### C8 -/

/-- C8: `handle_agent_request` is total by construction (it is a Lean
function) and never returns an empty response; the empty payload, any
type byte other than 11/13, a SIGN_REQUEST whose body fails to parse, and
a SIGN_REQUEST whose key blob matches no stored key all produce exactly
the single-byte FAILURE response `[5]`. -/
theorem C8_agent_request_failure_cases :
    ∀ (sign : KeyPair → List Nat → Except Unit Sig) (keys : List KeyPair)
      (payload : List Nat),
      handle_agent_request sign keys payload ≠ [] ∧
      (payload = [] → handle_agent_request sign keys payload = [5]) ∧
      (∀ t rest, payload = t :: rest → ¬ t = 11 → ¬ t = 13 →
        handle_agent_request sign keys payload = [5]) ∧
      (∀ rest, payload = 13 :: rest → parseSignRequest rest = none →
        handle_agent_request sign keys payload = [5]) ∧
      (∀ rest blob data flags, payload = 13 :: rest →
        parseSignRequest rest = some (blob, data, flags) →
        (∀ k ∈ keys, ¬ k.public_key_bytes = blob) →
        handle_agent_request sign keys payload = [5]) := by
  intro sign keys payload
  refine ⟨?_, ?_, ?_, ?_, ?_⟩
  · match payload with
    | [] => simp [handle_agent_request]
    | t :: rest =>
      by_cases h11 : t = 11
      · rw [handle_agent_request, if_pos h11, identitiesAnswer_eq]
        simp
      · by_cases h13 : t = 13
        · rw [handle_agent_request, if_neg h11, if_pos h13]
          cases hp : parseSignRequest rest with
          | none => simp
          | some v => exact signSearch_ne_nil sign v.2.1 v.1 keys
        · simp [handle_agent_request, h11, h13]
  · intro h; subst h; rfl
  · intro t rest h h11 h13; subst h
    simp [handle_agent_request, h11, h13]
  · intro rest h hp; subst h
    simp [handle_agent_request, hp]
  · intro rest blob data flags h hp hnone; subst h
    rw [handle_agent_request]
    simp only [hp]
    simp only [show (13 : Nat) ≠ 11 by decide, if_neg, if_pos]
    exact signSearch_eq_five_of_no_match sign data blob keys hnone

/-- C8 witness: concrete instances of the failure cases — empty payload,
unknown type byte 7, a truncated SIGN_REQUEST, and a well-formed
SIGN_REQUEST whose blob `[9]` matches no stored key. -/
theorem C8_witness :
    handle_agent_request sigNone [] [] = [5] ∧
      handle_agent_request sigNone [] [7, 0] = [5] ∧
      handle_agent_request sigNone [] [13, 0, 0] = [5] ∧
      handle_agent_request sigNone [KeyPair.ed25519 [1]]
        [13, 0, 0, 0, 1, 9, 0, 0, 0, 1, 1, 0, 0, 0, 0] = [5] := by
  refine ⟨?_, ?_, ?_, ?_⟩
  · exact (C8_agent_request_failure_cases sigNone [] []).2.1 rfl
  · exact (C8_agent_request_failure_cases sigNone [] [7, 0]).2.2.1 7 [0] rfl
      (by decide) (by decide)
  · exact (C8_agent_request_failure_cases sigNone [] [13, 0, 0]).2.2.2.1 [0, 0] rfl
      (by decide)
  · exact (C8_agent_request_failure_cases sigNone [KeyPair.ed25519 [1]]
      [13, 0, 0, 0, 1, 9, 0, 0, 0, 1, 1, 0, 0, 0, 0]).2.2.2.2
      [0, 0, 0, 1, 9, 0, 0, 0, 1, 1, 0, 0, 0, 0] [9] [1] 0 rfl (by decide) (by decide)

/-! ### Monotonicity lemmas for the transfer pipelines -/

theorem lbChain_of_le (a b : Nat) (l : List Nat) (hab : a ≤ b)
    (h : lbChain b l = true) : lbChain a l = true := by
  cases l with
  | nil => rfl
  | cons x l =>
    simp only [lbChain, Bool.and_eq_true, Nat.ble_eq] at h ⊢
    exact ⟨le_trans hab h.1, h.2⟩

theorem lbChain_append_bridge (m : Nat) (l1 : List Nat) :
    ∀ (a : Nat) (l2 : List Nat), lbChain a (l1 ++ [m]) = true →
      lbChain m l2 = true → lbChain a (l1 ++ l2) = true := by
  induction l1 with
  | nil =>
    intro a l2 h1 h2
    simp only [List.nil_append, lbChain, Bool.and_eq_true, Nat.ble_eq] at h1
    exact lbChain_of_le a m l2 h1.1 h2
  | cons x l1 ih =>
    intro a l2 h1 h2
    simp only [List.cons_append, lbChain, Bool.and_eq_true] at h1 ⊢
    exact ⟨h1.1, ih x l2 h1.2 h2⟩

theorem pvals_append (l1 l2 : List TransferEvent) :
    pvals (l1 ++ l2) = pvals l1 ++ pvals l2 := by
  simp [pvals]

theorem chunkLoop_lb (tid : String) (total : Nat) (wPre : String) :
    ∀ (items : List ChunkItem) (acc : Nat),
      lbChain acc (pvals (chunkLoop tid total wPre acc items).2 ++
        okTail (chunkLoop tid total wPre acc items).1) = true := by
  intro items
  induction items with
  | nil =>
    intro acc
    simp [chunkLoop, okTail, pvals, lbChain, Nat.ble_eq]
  | cons i rest ih =>
    intro acc
    cases i with
    | readErr m => simp [chunkLoop, okTail, pvals, lbChain]
    | chunk c =>
      by_cases hc : c.cancelSeen = true
      · simp [chunkLoop, hc, okTail, pvals, lbChain]
      · cases hw : c.writeErr with
        | some m =>
          simp [chunkLoop, hc, hw, okTail, pvals, lbChain]
        | none =>
          have hrec := ih (acc + c.size)
          by_cases he : c.emitDue = true
          · simp only [chunkLoop, hc, hw, he, Bool.false_eq_true, if_false, if_true,
              pvals_append, List.append_assoc] at hrec ⊢
            simp only [pvals, List.filterMap_cons, List.filterMap_nil, List.cons_append,
              List.nil_append, lbChain, Bool.and_eq_true, Nat.ble_eq]
            exact ⟨Nat.le_add_right acc c.size, hrec⟩
          · simp only [chunkLoop, hc, hw, he, Bool.false_eq_true, if_false,
              pvals_append, List.append_assoc] at hrec ⊢
            simp only [pvals, List.filterMap_nil, List.nil_append]
            exact lbChain_of_le acc (acc + c.size) _ (Nat.le_add_right acc c.size) hrec

theorem putFiles_lb (tid : String) (total : Nat) :
    ∀ (files : List FileRun) (acc : Nat),
      lbChain acc (pvals (putFiles tid total acc files).2 ++
        okTail (putFiles tid total acc files).1) = true := by
  intro files
  induction files with
  | nil => intro acc; simp [putFiles, okTail, pvals, lbChain, Nat.ble_eq]
  | cons f rest ih =>
    intro acc
    cases ho : f.openErr with
    | some m => simp [putFiles, ho, okTail, pvals, lbChain]
    | none =>
      have hcl := chunkLoop_lb tid total "SFTP write failed: " f.items acc
      cases hc : chunkLoop tid total "SFTP write failed: " acc f.items with
      | mk r evs =>
        rw [hc] at hcl
        cases r with
        | error e =>
          simp only [putFiles, ho, hc]
          simpa [okTail] using hcl
        | ok acc2 =>
          have hrec := ih acc2
          simp only [putFiles, ho, hc, pvals_append, List.append_assoc]
          exact lbChain_append_bridge acc2 (pvals evs) acc _ (by simpa [okTail] using hcl) hrec

theorem getFiles_lb (tid : String) (total : Nat) :
    ∀ (files : List FileRun) (acc : Nat),
      lbChain acc (pvals (getFiles tid total acc files).2 ++
        okTail (getFiles tid total acc files).1) = true := by
  intro files
  induction files with
  | nil => intro acc; simp [getFiles, okTail, pvals, lbChain, Nat.ble_eq]
  | cons f rest ih =>
    intro acc
    cases ho : f.openErr with
    | some m => simp [getFiles, ho, okTail, pvals, lbChain]
    | none =>
      have hcl := chunkLoop_lb tid total "Local write failed: " f.items acc
      cases hc : chunkLoop tid total "Local write failed: " acc f.items with
      | mk r evs =>
        rw [hc] at hcl
        cases r with
        | error e =>
          simp only [getFiles, ho, hc]
          simpa [okTail] using hcl
        | ok acc2 =>
          have hrec := ih acc2
          simp only [getFiles, ho, hc, pvals_append, List.append_assoc]
          exact lbChain_append_bridge acc2 (pvals evs) acc _ (by simpa [okTail] using hcl) hrec

theorem copyFiles_lb (tid : String) (total : Nat) :
    ∀ (files : List FileRun) (acc : Nat),
      lbChain acc (pvals (copyFiles tid total acc files).2 ++
        okTail (copyFiles tid total acc files).1) = true := by
  intro files
  induction files with
  | nil => intro acc; simp [copyFiles, okTail, pvals, lbChain, Nat.ble_eq]
  | cons f rest ih =>
    intro acc
    by_cases hce : f.cancelAtEntry = true
    · simp [copyFiles, hce, okTail, pvals, lbChain]
    · cases ho : f.openErr with
      | some m => simp [copyFiles, hce, ho, okTail, pvals, lbChain]
      | none =>
        have hcl := chunkLoop_lb tid total "SFTP destination write failed: " f.items acc
        cases hc : chunkLoop tid total "SFTP destination write failed: " acc f.items with
        | mk r evs =>
          rw [hc] at hcl
          cases r with
          | error e =>
            simp only [copyFiles, hce, Bool.false_eq_true, if_false, ho, hc]
            simpa [okTail] using hcl
          | ok acc2 =>
            have hrec := ih acc2
            simp only [copyFiles, hce, Bool.false_eq_true, if_false, ho, hc,
              pvals_append, List.append_assoc]
            refine lbChain_append_bridge acc2 (pvals evs) acc _
              (by simpa [okTail] using hcl) ?_
            simp only [pvals, List.filterMap_cons, List.nil_append, List.filterMap_nil,
              List.cons_append]
            simp only [lbChain, Bool.and_eq_true, Nat.ble_eq]
            exact ⟨le_refl acc2, hrec⟩

/-! ### Clean-run lemmas -/

theorem chunkLoop_clean_fst (tid : String) (total : Nat) (wPre : String) :
    ∀ (items : List ChunkItem) (acc : Nat), cleanItems items = true →
      (chunkLoop tid total wPre acc items).1 = .ok (acc + itemsSum items) := by
  intro items
  induction items with
  | nil => intro acc _; simp [chunkLoop, itemsSum]
  | cons i rest ih =>
    intro acc h
    cases i with
    | readErr m => simp [cleanItems] at h
    | chunk c =>
      simp only [cleanItems, List.all_cons, Bool.and_eq_true, Bool.not_eq_true',
        Option.isNone_iff_eq_none] at h
      have hc : c.cancelSeen = false := h.1.1
      have hw : c.writeErr = none := h.1.2
      have hrest : cleanItems rest = true := by
        simpa [cleanItems] using h.2
      have := ih (acc + c.size) hrest
      simp only [chunkLoop, hc, Bool.false_eq_true, if_false, hw]
      rw [this]
      simp [itemsSum, List.map_cons, List.sum_cons]
      omega

theorem copyFiles_clean (tid : String) (total : Nat) :
    ∀ (files : List FileRun) (acc : Nat), cleanFiles files = true →
      (copyFiles tid total acc files).1 = .ok (acc + filesSum files) ∧
      (acc :: pvals (copyFiles tid total acc files).2).getLast? =
        some (acc + filesSum files) := by
  intro files
  induction files with
  | nil => intro acc _; simp [copyFiles, filesSum, pvals]
  | cons f rest ih =>
    intro acc h
    simp only [cleanFiles, List.all_cons, Bool.and_eq_true, Bool.not_eq_true',
      Option.isNone_iff_eq_none] at h
    have hce : f.cancelAtEntry = false := h.1.1.2
    have ho : f.openErr = none := h.1.1.1
    have hclean : cleanItems f.items = true := h.1.2
    have hrest : cleanFiles rest = true := by
      simpa [cleanFiles] using h.2
    have hfst := chunkLoop_clean_fst tid total "SFTP destination write failed: "
      f.items acc hclean
    cases hc : chunkLoop tid total "SFTP destination write failed: " acc f.items with
    | mk r evs =>
      rw [hc] at hfst
      simp only at hfst
      subst hfst
      have hrec := ih (acc + itemsSum f.items) hrest
      simp only [copyFiles, hce, Bool.false_eq_true, if_false, ho, hc]
      constructor
      · rw [hrec.1]
        simp [filesSum, List.map_cons, List.sum_cons]
        omega
      · simp only [pvals_append, List.append_assoc]
        simp only [pvals, List.filterMap_cons, List.filterMap_nil, List.nil_append,
          List.cons_append]
        have hne : (acc + itemsSum f.items) ::
            pvals (copyFiles tid total (acc + itemsSum f.items) rest).2 ≠ [] := by
          simp
        calc (acc :: (pvals evs ++ (acc + itemsSum f.items) ::
                pvals (copyFiles tid total (acc + itemsSum f.items) rest).2)).getLast?
            = ((acc :: pvals evs) ++ ((acc + itemsSum f.items) ::
                pvals (copyFiles tid total (acc + itemsSum f.items) rest).2)).getLast? := by
              simp
          _ = ((acc + itemsSum f.items) ::
                pvals (copyFiles tid total (acc + itemsSum f.items) rest).2).getLast? := by
              rw [List.getLast?_append]
              cases hgl : ((acc + itemsSum f.items) ::
                  pvals (copyFiles tid total (acc + itemsSum f.items) rest).2).getLast? with
              | none => exact absurd (List.getLast?_eq_none_iff.mp hgl) hne
              | some v => simp
          _ = some (acc + itemsSum f.items + filesSum rest) := hrec.2
          _ = some (acc + filesSum (f :: rest)) := by
              simp [filesSum, List.map_cons, List.sum_cons]
              omega

/-! ### Terminal-event and total-field lemmas -/

theorem terminalEvents_append (tid : String) (l1 l2 : List TransferEvent) :
    terminalEvents tid (l1 ++ l2) = terminalEvents tid l1 ++ terminalEvents tid l2 := by
  simp [terminalEvents]

theorem terminalEvents_chunkLoop (tid tid2 : String) (total : Nat) (wPre : String) :
    ∀ (items : List ChunkItem) (acc : Nat),
      terminalEvents tid (chunkLoop tid2 total wPre acc items).2 = [] := by
  intro items
  induction items with
  | nil => intro acc; simp [chunkLoop, terminalEvents]
  | cons i rest ih =>
    intro acc
    cases i with
    | readErr m => simp [chunkLoop, terminalEvents]
    | chunk c =>
      by_cases hc : c.cancelSeen = true
      · simp [chunkLoop, hc, terminalEvents]
      · cases hw : c.writeErr with
        | some m => simp [chunkLoop, hc, hw, terminalEvents]
        | none =>
          by_cases he : c.emitDue = true
          · simp only [chunkLoop, hc, Bool.false_eq_true, if_false, hw, he, if_true]
            rw [terminalEvents_append, ih (acc + c.size)]
            simp [terminalEvents, isTerminalFor]
          · simp only [chunkLoop, hc, Bool.false_eq_true, if_false, hw, he]
            rw [terminalEvents_append, ih (acc + c.size)]
            simp [terminalEvents]


theorem terminalEvents_putFiles (tid tid2 : String) (total : Nat) :
    ∀ (files : List FileRun) (acc : Nat),
      terminalEvents tid (putFiles tid2 total acc files).2 = [] := by
  intro files
  induction files with
  | nil => intro acc; simp [putFiles, terminalEvents]
  | cons f rest ih =>
    intro acc
    cases ho : f.openErr with
    | some m => simp [putFiles, ho, terminalEvents]
    | none =>
      cases hc : chunkLoop tid2 total "SFTP write failed: " acc f.items with
      | mk r evs =>
        have hevs := terminalEvents_chunkLoop tid tid2 total "SFTP write failed: " f.items acc
        rw [hc] at hevs
        cases r with
        | error e => simp only [putFiles, ho, hc]; exact hevs
        | ok acc2 =>
          simp only [putFiles, ho, hc, terminalEvents_append]
          simp [hevs, ih acc2]

theorem terminalEvents_getFiles (tid tid2 : String) (total : Nat) :
    ∀ (files : List FileRun) (acc : Nat),
      terminalEvents tid (getFiles tid2 total acc files).2 = [] := by
  intro files
  induction files with
  | nil => intro acc; simp [getFiles, terminalEvents]
  | cons f rest ih =>
    intro acc
    cases ho : f.openErr with
    | some m => simp [getFiles, ho, terminalEvents]
    | none =>
      cases hc : chunkLoop tid2 total "Local write failed: " acc f.items with
      | mk r evs =>
        have hevs := terminalEvents_chunkLoop tid tid2 total "Local write failed: " f.items acc
        rw [hc] at hevs
        cases r with
        | error e => simp only [getFiles, ho, hc]; exact hevs
        | ok acc2 =>
          simp only [getFiles, ho, hc, terminalEvents_append]
          simp [hevs, ih acc2]

theorem terminalEvents_copyFiles (tid tid2 : String) (total : Nat) :
    ∀ (files : List FileRun) (acc : Nat),
      terminalEvents tid (copyFiles tid2 total acc files).2 = [] := by
  intro files
  induction files with
  | nil => intro acc; simp [copyFiles, terminalEvents]
  | cons f rest ih =>
    intro acc
    by_cases hce : f.cancelAtEntry = true
    · simp [copyFiles, hce, terminalEvents]
    · cases ho : f.openErr with
      | some m => simp [copyFiles, hce, ho, terminalEvents]
      | none =>
        cases hc : chunkLoop tid2 total "SFTP destination write failed: " acc f.items with
        | mk r evs =>
          have hevs := terminalEvents_chunkLoop tid tid2 total
            "SFTP destination write failed: " f.items acc
          rw [hc] at hevs
          cases r with
          | error e =>
            simp only [copyFiles, hce, Bool.false_eq_true, if_false, ho, hc]
            exact hevs
          | ok acc2 =>
            simp only at hevs
            simp only [copyFiles, hce, Bool.false_eq_true, if_false, ho, hc]
            rw [terminalEvents_append, terminalEvents_append, hevs, ih acc2]
            simp [terminalEvents, isTerminalFor]

theorem terminalEvents_finish (tid dst : String) (r : Except String Nat) :
    terminalEvents tid (finishEvents tid dst r) =
      (match r with
       | .ok _ => [TransferEvent.success tid dst]
       | .error e =>
         if e = "Cancelled" then [TransferEvent.error tid "Cancelled"]
         else [TransferEvent.error tid e]) := by
  cases r with
  | ok a => simp [finishEvents, terminalEvents, isTerminalFor]
  | error e =>
    by_cases he : e = "Cancelled" <;>
      simp [finishEvents, he, terminalEvents, isTerminalFor]

theorem terminalEvents_copyFinish (tid dst : String) (r : Except String Nat) :
    terminalEvents tid (copyFinish tid dst r) =
      (match r with
       | .ok _ => [TransferEvent.success tid dst]
       | .error e =>
         if e = "Cancelled" then [TransferEvent.error tid "Cancelled"]
         else [TransferEvent.error tid e]) := by
  cases r with
  | ok a => simp [copyFinish, terminalEvents, isTerminalFor]
  | error e =>
    by_cases he : e = "Cancelled" <;>
      simp [copyFinish, he, terminalEvents, isTerminalFor]

theorem allProgressTotalEq_append (n : Nat) (l1 l2 : List TransferEvent) :
    allProgressTotalEq n (l1 ++ l2) =
      (allProgressTotalEq n l1 && allProgressTotalEq n l2) := by
  simp [allProgressTotalEq]

theorem chunkLoop_totals (tid : String) (total : Nat) (wPre : String) :
    ∀ (items : List ChunkItem) (acc : Nat),
      allProgressTotalEq total (chunkLoop tid total wPre acc items).2 = true := by
  intro items
  induction items with
  | nil => intro acc; simp [chunkLoop, allProgressTotalEq]
  | cons i rest ih =>
    intro acc
    cases i with
    | readErr m => simp [chunkLoop, allProgressTotalEq]
    | chunk c =>
      by_cases hc : c.cancelSeen = true
      · simp [chunkLoop, hc, allProgressTotalEq]
      · cases hw : c.writeErr with
        | some m => simp [chunkLoop, hc, hw, allProgressTotalEq]
        | none =>
          by_cases he : c.emitDue = true
          · simp only [chunkLoop, hc, Bool.false_eq_true, if_false, hw, he, if_true]
            rw [allProgressTotalEq_append, ih (acc + c.size)]
            simp [allProgressTotalEq]
          · simp only [chunkLoop, hc, Bool.false_eq_true, if_false, hw, he]
            rw [allProgressTotalEq_append, ih (acc + c.size)]
            simp [allProgressTotalEq]

theorem putFiles_totals (tid : String) (total : Nat) :
    ∀ (files : List FileRun) (acc : Nat),
      allProgressTotalEq total (putFiles tid total acc files).2 = true := by
  intro files
  induction files with
  | nil => intro acc; simp [putFiles, allProgressTotalEq]
  | cons f rest ih =>
    intro acc
    cases ho : f.openErr with
    | some m => simp [putFiles, ho, allProgressTotalEq]
    | none =>
      cases hc : chunkLoop tid total "SFTP write failed: " acc f.items with
      | mk r evs =>
        have hevs := chunkLoop_totals tid total "SFTP write failed: " f.items acc
        rw [hc] at hevs
        cases r with
        | error e => simp only [putFiles, ho, hc]; exact hevs
        | ok acc2 =>
          simp only [putFiles, ho, hc, allProgressTotalEq_append]
          simp [hevs, ih acc2]

theorem getFiles_totals (tid : String) (total : Nat) :
    ∀ (files : List FileRun) (acc : Nat),
      allProgressTotalEq total (getFiles tid total acc files).2 = true := by
  intro files
  induction files with
  | nil => intro acc; simp [getFiles, allProgressTotalEq]
  | cons f rest ih =>
    intro acc
    cases ho : f.openErr with
    | some m => simp [getFiles, ho, allProgressTotalEq]
    | none =>
      cases hc : chunkLoop tid total "Local write failed: " acc f.items with
      | mk r evs =>
        have hevs := chunkLoop_totals tid total "Local write failed: " f.items acc
        rw [hc] at hevs
        cases r with
        | error e => simp only [getFiles, ho, hc]; exact hevs
        | ok acc2 =>
          simp only [getFiles, ho, hc, allProgressTotalEq_append]
          simp [hevs, ih acc2]

theorem copyFiles_totals (tid : String) (total : Nat) :
    ∀ (files : List FileRun) (acc : Nat),
      allProgressTotalEq total (copyFiles tid total acc files).2 = true := by
  intro files
  induction files with
  | nil => intro acc; simp [copyFiles, allProgressTotalEq]
  | cons f rest ih =>
    intro acc
    by_cases hce : f.cancelAtEntry = true
    · simp [copyFiles, hce, allProgressTotalEq]
    · cases ho : f.openErr with
      | some m => simp [copyFiles, hce, ho, allProgressTotalEq]
      | none =>
        cases hc : chunkLoop tid total "SFTP destination write failed: " acc f.items with
        | mk r evs =>
          have hevs := chunkLoop_totals tid total "SFTP destination write failed: "
            f.items acc
          rw [hc] at hevs
          cases r with
          | error e =>
            simp only [copyFiles, hce, Bool.false_eq_true, if_false, ho, hc]
            exact hevs
          | ok acc2 =>
            simp only at hevs
            simp only [copyFiles, hce, Bool.false_eq_true, if_false, ho, hc]
            rw [allProgressTotalEq_append, allProgressTotalEq_append, hevs, ih acc2]
            simp [allProgressTotalEq]

theorem allGE1_of_totalEq (n : Nat) (hn : 1 ≤ n) :
    ∀ evs : List TransferEvent, allProgressTotalEq n evs = true →
      allProgressTotalGE1 evs = true := by
  intro evs
  induction evs with
  | nil => intro _; rfl
  | cons e rest ih =>
    intro h
    simp only [allProgressTotalEq, List.all_cons, Bool.and_eq_true] at h
    simp only [allProgressTotalGE1, List.all_cons, Bool.and_eq_true]
    refine ⟨?_, by simpa [allProgressTotalGE1] using ih (by simpa [allProgressTotalEq] using h.2)⟩
    cases e with
    | progress i tr t =>
      simp only [decide_eq_true_eq] at h
      simp [Nat.ble_eq, h.1 ▸ hn]
    | success i d => rfl
    | cancelled i d => rfl
    | error i m => rfl

theorem finishEvents_totals (n : Nat) (tid dst : String) (r : Except String Nat) :
    allProgressTotalEq n (finishEvents tid dst r) = true := by
  cases r with
  | ok a => simp [finishEvents, allProgressTotalEq]
  | error e =>
    by_cases he : e = "Cancelled" <;> simp [finishEvents, he, allProgressTotalEq]

theorem copyFinish_GE1 (tid dst : String) (r : Except String Nat) :
    allProgressTotalGE1 (copyFinish tid dst r) = true := by
  cases r with
  | ok a => simp [copyFinish, allProgressTotalGE1]
  | error e =>
    by_cases he : e = "Cancelled" <;> simp [copyFinish, he, allProgressTotalGE1]

theorem finishEvents_GE1 (tid dst : String) (r : Except String Nat) :
    allProgressTotalGE1 (finishEvents tid dst r) = true := by
  cases r with
  | ok a => simp [finishEvents, allProgressTotalGE1]
  | error e =>
    by_cases he : e = "Cancelled" <;> simp [finishEvents, he, allProgressTotalGE1]

theorem one_le_ite_total (size : Nat) : 1 ≤ (if size = 0 then 1 else size) := by
  by_cases h : size = 0
  · simp [h]
  · simp [h]
    omega

theorem lbChain_append_left (a : Nat) :
    ∀ (l1 l2 : List Nat), lbChain a (l1 ++ l2) = true → lbChain a l1 = true := by
  intro l1
  induction l1 generalizing a with
  | nil => intro l2 _; rfl
  | cons x l1 ih =>
    intro l2 h
    simp only [List.cons_append, lbChain, Bool.and_eq_true] at h ⊢
    exact ⟨h.1, ih x l2 h.2⟩

theorem pvals_finishEvents (tid dst : String) (r : Except String Nat) :
    pvals (finishEvents tid dst r) = [] := by
  cases r with
  | ok a => simp [finishEvents, pvals]
  | error e => by_cases he : e = "Cancelled" <;> simp [finishEvents, he, pvals]

theorem pvals_copyFinish (tid dst : String) (r : Except String Nat) :
    pvals (copyFinish tid dst r) =
      (match r with
       | .ok _ => [100]
       | .error _ => []) := by
  cases r with
  | ok a => simp [copyFinish, pvals]
  | error e => by_cases he : e = "Cancelled" <;> simp [copyFinish, he, pvals]

theorem pvals_cons_progress (i : String) (tr tot : Nat) (l : List TransferEvent) :
    pvals (TransferEvent.progress i tr tot :: l) = tr :: pvals l := by
  simp [pvals]

theorem terminalEvents_cons_progress (tid i : String) (tr t : Nat)
    (l : List TransferEvent) :
    terminalEvents tid (TransferEvent.progress i tr t :: l) = terminalEvents tid l := by
  simp [terminalEvents, isTerminalFor]

theorem allProgressTotalEq_cons_progress (n : Nat) (i : String) (tr : Nat)
    (l : List TransferEvent) :
    allProgressTotalEq n (TransferEvent.progress i tr n :: l) =
      allProgressTotalEq n l := by
  simp [allProgressTotalEq]

theorem allProgressTotalGE1_cons_progress (i : String) (tr t : Nat)
    (l : List TransferEvent) (h : 1 ≤ t) :
    allProgressTotalGE1 (TransferEvent.progress i tr t :: l) =
      allProgressTotalGE1 l := by
  simp [allProgressTotalGE1, Nat.ble_eq, h]

theorem allProgressTotalGE1_append (l1 l2 : List TransferEvent) :
    allProgressTotalGE1 (l1 ++ l2) =
      (allProgressTotalGE1 l1 && allProgressTotalGE1 l2) := by
  simp [allProgressTotalGE1]

theorem terminalEvents_finish_length (tid dst : String) (r : Except String Nat) :
    (terminalEvents tid (finishEvents tid dst r)).length = 1 := by
  rw [terminalEvents_finish]
  cases r with
  | ok a => rfl
  | error e => by_cases he : e = "Cancelled" <;> simp [he]

theorem terminalEvents_copyFinish_length (tid dst : String) (r : Except String Nat) :
    (terminalEvents tid (copyFinish tid dst r)).length = 1 := by
  rw [terminalEvents_copyFinish]
  cases r with
  | ok a => rfl
  | error e => by_cases he : e = "Cancelled" <;> simp [he]

/-! ### C1 -/

/-- C1 counterexample: a successful `sftp_copy_to_server` of a single
200-byte source file emits the progress sequence 0, 200 (the exact
per-file final emit), then 100 (the fixed success emit with
transferred = 100, total = 100): the sequence of `transferred` values is
not monotonically non-decreasing, and the final reported value is 100,
not the 200-byte source size. -/
theorem C1_counterexample :
    nondec (pvals (copyTrace "t1" "d1" (.ok ()) 200 false (.ok ())
        [⟨none, false, [ChunkItem.chunk ⟨200, false, none, false⟩]⟩])) = false ∧
      pvals (copyTrace "t1" "d1" (.ok ()) 200 false (.ok ())
        [⟨none, false, [ChunkItem.chunk ⟨200, false, none, false⟩]⟩]) = [0, 200, 100] ∧
      (pvals (copyTrace "t1" "d1" (.ok ()) 200 false (.ok ())
        [⟨none, false, [ChunkItem.chunk ⟨200, false, none, false⟩]⟩])).getLast? =
        some 100 ∧
      filesSum [⟨none, false, [ChunkItem.chunk ⟨200, false, none, false⟩]⟩] = 200 := by
  refine ⟨?_, ?_, ?_, ?_⟩ <;> decide

/-- C1 (amended): the `transferred` values of the progress events emitted
by `sftp_put` and `sftp_get` are monotonically non-decreasing running
byte counts on every run (but the last value reported before termination
is whatever partial sum the 100 ms rate limiter last allowed, so it can
fall short of the source size); for `sftp_copy_to_server` the progress
events are non-decreasing on every failing run, and on a successful run
they are the non-decreasing running counts — whose last value is exactly
the sum of the source file sizes, thanks to the unconditional per-file
final emits — followed by one extra success-path event with
transferred = 100 and total = 100, which breaks monotonicity whenever the
source exceeds 100 bytes and makes the final reported value 100. -/
theorem C1_progress_monotone_amended :
    ∀ (tid connectionId dstId : String) (localRes sftpRes : Except String Unit)
      (size : Nat) (files : List FileRun),
      nondec (pvals (putTrace tid connectionId localRes sftpRes size files)) = true ∧
      nondec (pvals (getTrace tid sftpRes size files)) = true ∧
      (∀ (srcRes dstRes : Except String Unit) (ce : Bool) (e : String),
        (copyFiles tid (if size = 0 then 1 else size) 0 files).1 = .error e →
        nondec (pvals (copyTrace tid dstId srcRes size ce dstRes files)) = true) ∧
      (cleanFiles files = true →
        pvals (copyTrace tid dstId (.ok ()) size false (.ok ()) files) =
          (0 :: pvals (copyFiles tid (if size = 0 then 1 else size) 0 files).2) ++
            [100] ∧
        nondec (0 :: pvals (copyFiles tid (if size = 0 then 1 else size) 0 files).2) =
          true ∧
        (0 :: pvals
            (copyFiles tid (if size = 0 then 1 else size) 0 files).2).getLast? =
          some (filesSum files)) := by
  intro tid connectionId dstId localRes sftpRes size files
  refine ⟨?_, ?_, ?_, ?_⟩
  · by_cases hloc : connectionId = "local"
    · cases localRes with
      | ok u => simp [putTrace, hloc, pvals_finishEvents, nondec]
      | error e => simp [putTrace, hloc, pvals_finishEvents, nondec]
    · cases sftpRes with
      | error e => simp [putTrace, hloc, pvals_finishEvents, nondec]
      | ok u =>
        have hlb := putFiles_lb tid (if size = 0 then 1 else size) files 0
        simp only [putTrace, hloc, if_false]
        rw [pvals_append, pvals_cons_progress, pvals_finishEvents, List.append_nil]
        simpa [nondec] using lbChain_append_left 0 _ _ hlb
  · cases sftpRes with
    | error e => simp [getTrace, pvals_finishEvents, nondec]
    | ok u =>
      have hlb := getFiles_lb tid (if size = 0 then 1 else size) files 0
      simp only [getTrace]
      rw [pvals_append, pvals_cons_progress, pvals_finishEvents, List.append_nil]
      simpa [nondec] using lbChain_append_left 0 _ _ hlb
  · intro srcRes dstRes ce e hrun
    cases srcRes with
    | error e2 =>
      simp only [copyTrace]
      rw [pvals_copyFinish]
      simp [nondec]
    | ok u =>
      by_cases hce : ce = true
      · simp only [copyTrace, hce, if_true]
        rw [pvals_cons_progress, pvals_copyFinish]
        simp [nondec, lbChain]
      · cases dstRes with
        | error e2 =>
          simp only [copyTrace, hce, Bool.false_eq_true, if_false]
          rw [pvals_cons_progress, pvals_copyFinish]
          simp [nondec, lbChain]
        | ok u2 =>
          have hlb := copyFiles_lb tid (if size = 0 then 1 else size) files 0
          rw [hrun] at hlb
          simp only [okTail, List.append_nil] at hlb
          simp only [copyTrace, hce, Bool.false_eq_true, if_false]
          rw [pvals_append, pvals_cons_progress, hrun, pvals_copyFinish]
          simpa [nondec] using hlb
  · intro hclean
    have hcf := copyFiles_clean tid (if size = 0 then 1 else size) files 0 hclean
    have hlb := copyFiles_lb tid (if size = 0 then 1 else size) files 0
    rw [hcf.1] at hlb
    refine ⟨?_, ?_, ?_⟩
    · simp only [copyTrace, Bool.false_eq_true, if_false]
      rw [hcf.1, pvals_append, pvals_cons_progress, pvals_copyFinish]
    · simp only [nondec]
      simp only [okTail] at hlb
      exact lbChain_append_left 0 _ _ hlb
    · simpa using hcf.2

/-- C1 witness: a clean one-file three-byte copy run — the clean-run
hypothesis is discharged by computation and the amended equalities hold
at this input; the put-trace of the same input is monotone. -/
theorem C1_witness :
    cleanFiles [⟨none, false, [ChunkItem.chunk ⟨3, false, none, true⟩]⟩] = true ∧
      pvals (copyTrace "t1" "d1" (.ok ()) 3 false (.ok ())
          [⟨none, false, [ChunkItem.chunk ⟨3, false, none, true⟩]⟩]) =
        (0 :: pvals (copyFiles "t1" (if (3 : Nat) = 0 then 1 else 3) 0
          [⟨none, false, [ChunkItem.chunk ⟨3, false, none, true⟩]⟩]).2) ++ [100] ∧
      nondec (pvals (putTrace "t1" "c1" (.ok ()) (.ok ()) 3
        [⟨none, false, [ChunkItem.chunk ⟨3, false, none, true⟩]⟩])) = true := by
  refine ⟨by decide, ?_, ?_⟩
  · exact ((C1_progress_monotone_amended "t1" "c1" "d1" (.ok ()) (.ok ()) 3
      [⟨none, false, [ChunkItem.chunk ⟨3, false, none, true⟩]⟩]).2.2.2 (by decide)).1
  · exact (C1_progress_monotone_amended "t1" "c1" "d1" (.ok ()) (.ok ()) 3
      [⟨none, false, [ChunkItem.chunk ⟨3, false, none, true⟩]⟩]).1

/-! ### C9 -/

/-- C9: every transfer-progress event emitted by `sftp_put`, `sftp_get`
and `sftp_copy_to_server` carries a total of at least 1: the pre-computed
source size is replaced by 1 when it is 0 before any event is emitted
(and the fixed success emit of the copy path carries total 100).  For put
and get, every progress event carries exactly that replaced total. -/
theorem C9_progress_total_at_least_one :
    ∀ (tid connectionId dstId : String)
      (localRes sftpRes srcRes dstRes : Except String Unit)
      (size : Nat) (files : List FileRun) (ce : Bool),
      allProgressTotalGE1 (putTrace tid connectionId localRes sftpRes size files) =
        true ∧
      allProgressTotalGE1 (getTrace tid sftpRes size files) = true ∧
      allProgressTotalGE1 (copyTrace tid dstId srcRes size ce dstRes files) = true ∧
      allProgressTotalEq (if size = 0 then 1 else size)
        (putTrace tid connectionId localRes sftpRes size files) = true ∧
      allProgressTotalEq (if size = 0 then 1 else size)
        (getTrace tid sftpRes size files) = true := by
  intro tid connectionId dstId localRes sftpRes srcRes dstRes size files ce
  have hone := one_le_ite_total size
  have hputEq : allProgressTotalEq (if size = 0 then 1 else size)
      (putTrace tid connectionId localRes sftpRes size files) = true := by
    by_cases hloc : connectionId = "local"
    · cases localRes with
      | ok u => simp [putTrace, hloc, finishEvents_totals]
      | error e => simp [putTrace, hloc, finishEvents_totals]
    · cases sftpRes with
      | error e => simp [putTrace, hloc, finishEvents_totals]
      | ok u =>
        simp only [putTrace, hloc, if_false]
        rw [allProgressTotalEq_append, allProgressTotalEq_cons_progress,
          putFiles_totals tid (if size = 0 then 1 else size) files 0,
          finishEvents_totals]
        rfl
  have hgetEq : allProgressTotalEq (if size = 0 then 1 else size)
      (getTrace tid sftpRes size files) = true := by
    cases sftpRes with
    | error e => simp [getTrace, finishEvents_totals]
    | ok u =>
      simp only [getTrace]
      rw [allProgressTotalEq_append, allProgressTotalEq_cons_progress,
        getFiles_totals tid (if size = 0 then 1 else size) files 0,
        finishEvents_totals]
      rfl
  refine ⟨allGE1_of_totalEq _ hone _ hputEq, allGE1_of_totalEq _ hone _ hgetEq,
    ?_, hputEq, hgetEq⟩
  cases srcRes with
  | error e => simp [copyTrace, copyFinish_GE1]
  | ok u =>
    by_cases hce : ce = true
    · simp only [copyTrace, hce, if_true]
      rw [allProgressTotalGE1_cons_progress _ _ _ _ hone, copyFinish_GE1]
    · cases dstRes with
      | error e =>
        simp only [copyTrace, hce, Bool.false_eq_true, if_false]
        rw [allProgressTotalGE1_cons_progress _ _ _ _ hone, copyFinish_GE1]
      | ok u2 =>
        simp only [copyTrace, hce, Bool.false_eq_true, if_false]
        rw [allProgressTotalGE1_append, allProgressTotalGE1_cons_progress _ _ _ _ hone,
          allGE1_of_totalEq _ hone _
            (copyFiles_totals tid (if size = 0 then 1 else size) files 0),
          copyFinish_GE1]
        rfl

/-! ### C2 -/

/-- C2: when a transfer started by `sftp_put`, `sftp_get` or
`sftp_copy_to_server` terminates — success, failure or cancellation — its
(fresh) transfer id ends up absent from the process-wide cancellation
table, and the trace carries exactly one terminal event
(`transfer-success` or `transfer-error`) for that id; when the run was
cancelled, the terminal event is a `transfer-error` whose message is
exactly "Cancelled". -/
theorem C2_transfer_termination :
    ∀ (transfers : List (String × Bool)) (tid connectionId dstId : String)
      (localRes sftpRes srcRes dstRes : Except String Unit) (size : Nat)
      (files : List FileRun) (sftpOk ce : Bool),
      lookupTable transfers tid = none →
      lookupTable (registerAndCleanup transfers tid) tid = none ∧
      lookupTable (getTableAfter transfers tid sftpOk) tid = none ∧
      (terminalEvents tid
        (putTrace tid connectionId localRes sftpRes size files)).length = 1 ∧
      (terminalEvents tid (getTrace tid sftpRes size files)).length = 1 ∧
      (terminalEvents tid
        (copyTrace tid dstId srcRes size ce dstRes files)).length = 1 ∧
      (¬ connectionId = "local" →
        (putFiles tid (if size = 0 then 1 else size) 0 files).1 =
          .error "Cancelled" →
        terminalEvents tid (putTrace tid connectionId (.ok ()) (.ok ()) size files) =
          [.error tid "Cancelled"]) ∧
      ((getFiles tid (if size = 0 then 1 else size) 0 files).1 =
          .error "Cancelled" →
        terminalEvents tid (getTrace tid (.ok ()) size files) =
          [.error tid "Cancelled"]) ∧
      ((copyFiles tid (if size = 0 then 1 else size) 0 files).1 =
          .error "Cancelled" →
        terminalEvents tid (copyTrace tid dstId (.ok ()) size false (.ok ()) files) =
          [.error tid "Cancelled"]) := by
  intro transfers tid connectionId dstId localRes sftpRes srcRes dstRes size files
    sftpOk ce hfresh
  have hput : (terminalEvents tid
      (putTrace tid connectionId localRes sftpRes size files)).length = 1 := by
    by_cases hloc : connectionId = "local"
    · cases localRes with
      | ok u => simp only [putTrace, hloc, if_true]; exact terminalEvents_finish_length ..
      | error e => simp only [putTrace, hloc, if_true]; exact terminalEvents_finish_length ..
    · cases sftpRes with
      | error e =>
        simp only [putTrace, hloc, if_false]
        exact terminalEvents_finish_length ..
      | ok u =>
        simp only [putTrace, hloc, if_false]
        rw [terminalEvents_append, terminalEvents_cons_progress,
          terminalEvents_putFiles tid tid (if size = 0 then 1 else size) files 0,
          List.nil_append]
        exact terminalEvents_finish_length ..
  have hget : (terminalEvents tid (getTrace tid sftpRes size files)).length = 1 := by
    cases sftpRes with
    | error e => simp only [getTrace]; exact terminalEvents_finish_length ..
    | ok u =>
      simp only [getTrace]
      rw [terminalEvents_append, terminalEvents_cons_progress,
        terminalEvents_getFiles tid tid (if size = 0 then 1 else size) files 0,
        List.nil_append]
      exact terminalEvents_finish_length ..
  have hcopy : (terminalEvents tid
      (copyTrace tid dstId srcRes size ce dstRes files)).length = 1 := by
    cases srcRes with
    | error e => simp only [copyTrace]; exact terminalEvents_copyFinish_length ..
    | ok u =>
      by_cases hce : ce = true
      · simp only [copyTrace, hce, if_true]
        rw [terminalEvents_cons_progress]
        exact terminalEvents_copyFinish_length ..
      · cases dstRes with
        | error e =>
          simp only [copyTrace, hce, Bool.false_eq_true, if_false]
          rw [terminalEvents_cons_progress]
          exact terminalEvents_copyFinish_length ..
        | ok u2 =>
          simp only [copyTrace, hce, Bool.false_eq_true, if_false]
          rw [terminalEvents_append, terminalEvents_cons_progress,
            terminalEvents_copyFiles tid tid (if size = 0 then 1 else size) files 0,
            List.nil_append]
          exact terminalEvents_copyFinish_length ..
  refine ⟨lookupTable_registerAndCleanup transfers tid, ?_, hput, hget, hcopy,
    ?_, ?_, ?_⟩
  · by_cases hok : sftpOk = true
    · simp only [getTableAfter, hok, if_true]
      exact lookupTable_eraseTable_self ..
    · simp only [getTableAfter, hok, Bool.false_eq_true, if_false]
      exact hfresh
  · intro hlocne hrun
    simp only [putTrace, hlocne, if_false]
    rw [terminalEvents_append, terminalEvents_cons_progress,
      terminalEvents_putFiles tid tid (if size = 0 then 1 else size) files 0,
      List.nil_append, hrun, terminalEvents_finish]
    simp
  · intro hrun
    simp only [getTrace]
    rw [terminalEvents_append, terminalEvents_cons_progress,
      terminalEvents_getFiles tid tid (if size = 0 then 1 else size) files 0,
      List.nil_append, hrun, terminalEvents_finish]
    simp
  · intro hrun
    simp only [copyTrace, Bool.false_eq_true, if_false]
    rw [terminalEvents_append, terminalEvents_cons_progress,
      terminalEvents_copyFiles tid tid (if size = 0 then 1 else size) files 0,
      List.nil_append, hrun, terminalEvents_copyFinish]
    simp

/-- C2 witness: with a fresh id "t1" on an empty table, the table is
clear of "t1" after cleanup, a cancelled one-file copy run carries
exactly one terminal event, and that event is the `transfer-error` with
message "Cancelled". -/
theorem C2_witness :
    lookupTable ([] : List (String × Bool)) "t1" = none ∧
      lookupTable (registerAndCleanup [] "t1") "t1" = none ∧
      (terminalEvents "t1" (copyTrace "t1" "d1" (.ok ()) 5 false (.ok ())
        [⟨none, true, []⟩])).length = 1 ∧
      terminalEvents "t1" (copyTrace "t1" "d1" (.ok ()) 5 false (.ok ())
        [⟨none, true, []⟩]) = [.error "t1" "Cancelled"] := by
  obtain ⟨h1, _h2, _h3, _h4, h5, _h6, _h7, h8⟩ :=
    C2_transfer_termination [] "t1" "c1" "d1" (.ok ()) (.ok ()) (.ok ()) (.ok ())
      5 [⟨none, true, []⟩] true false (by decide)
  exact ⟨by decide, h1, h5, h8 (by rfl)⟩

/-! ### Lemmas for disconnect (C6) -/

theorem lookupTable_cons_self {α : Type} (p : String × α) (t : List (String × α))
    (k : String) (h : p.1 = k) : lookupTable (p :: t) k = some p.2 := by
  simp [lookupTable, List.find?_cons, h]

theorem lookupTable_cons_ne {α : Type} (p : String × α) (t : List (String × α))
    (k : String) (h : ¬ p.1 = k) : lookupTable (p :: t) k = lookupTable t k := by
  simp [lookupTable, List.find?_cons, h]

theorem eraseTable_cons_self {α : Type} (p : String × α) (t : List (String × α))
    (k : String) (h : p.1 = k) : eraseTable (p :: t) k = eraseTable t k := by
  simp [eraseTable, List.filter_cons, h]

theorem eraseTable_cons_ne {α : Type} (p : String × α) (t : List (String × α))
    (k : String) (h : ¬ p.1 = k) : eraseTable (p :: t) k = p :: eraseTable t k := by
  simp [eraseTable, List.filter_cons, h]

/-- The removal loop of `close_by_connection`, accumulator-threaded. -/
theorem cbc_fold_acc :
    ∀ (ids : List String) (t : List (String × PtySessionM)) (ab : List Nat),
      List.foldl
        (fun acc id =>
          match lookupTable acc.1 id with
          | none => acc
          | some s => (eraseTable acc.1 id, acc.2 ++ s.taskId.toList))
        (t, ab) ids =
      ((List.foldl
        (fun acc id =>
          match lookupTable acc.1 id with
          | none => acc
          | some s => (eraseTable acc.1 id, acc.2 ++ s.taskId.toList))
        (t, []) ids).1,
       ab ++ (List.foldl
        (fun acc id =>
          match lookupTable acc.1 id with
          | none => acc
          | some s => (eraseTable acc.1 id, acc.2 ++ s.taskId.toList))
        (t, []) ids).2) := by
  intro ids
  induction ids with
  | nil => intro t ab; simp
  | cons id rest ih =>
    intro t ab
    simp only [List.foldl_cons]
    cases h : lookupTable t id with
    | none => simp only [h]; exact ih t ab
    | some s =>
      simp only [h]
      rw [ih (eraseTable t id) (ab ++ s.taskId.toList),
        ih (eraseTable t id) ([] ++ s.taskId.toList)]
      simp

/-- The removal loop passes over an entry whose key it never removes. -/
theorem cbc_fold_skip :
    ∀ (ids : List String) (p : String × PtySessionM)
      (t : List (String × PtySessionM)) (ab : List Nat), p.1 ∉ ids →
      List.foldl
        (fun acc id =>
          match lookupTable acc.1 id with
          | none => acc
          | some s => (eraseTable acc.1 id, acc.2 ++ s.taskId.toList))
        (p :: t, ab) ids =
      ((p :: (List.foldl
        (fun acc id =>
          match lookupTable acc.1 id with
          | none => acc
          | some s => (eraseTable acc.1 id, acc.2 ++ s.taskId.toList))
        (t, ab) ids).1),
       (List.foldl
        (fun acc id =>
          match lookupTable acc.1 id with
          | none => acc
          | some s => (eraseTable acc.1 id, acc.2 ++ s.taskId.toList))
        (t, ab) ids).2) := by
  intro ids
  induction ids with
  | nil => intro p t ab _; simp
  | cons id rest ih =>
    intro p t ab hmem
    have hne : ¬ p.1 = id := by
      intro hk; exact hmem (by simp [hk])
    have hrest : p.1 ∉ rest := by
      intro hk; exact hmem (by simp [hk])
    simp only [List.foldl_cons, lookupTable_cons_ne p t id hne]
    cases h : lookupTable t id with
    | none => simp only [h]; exact ih p t ab hrest
    | some s =>
      simp only [h, eraseTable_cons_ne p t id hne]
      exact ih p (eraseTable t id) (ab ++ s.taskId.toList) hrest

/-- With unique terminal ids (a HashMap invariant), `close_by_connection`
removes exactly the sessions owned by the connection and aborts exactly
their task handles, in map order. -/
theorem close_by_connection_spec :
    ∀ (sessions : List (String × PtySessionM)) (connectionId : String),
      (sessions.map (fun p => p.1)).Nodup →
      close_by_connection sessions connectionId =
        (sessions.filter (fun p => ¬ p.2.connection_id = connectionId),
         ((sessions.filter (fun p => p.2.connection_id = connectionId)).map
           (fun p => p.2.taskId)).reduceOption) := by
  intro sessions connectionId
  induction sessions with
  | nil => intro _; rfl
  | cons p rest ih =>
    intro hnd
    simp only [List.map_cons, List.nodup_cons] at hnd
    have hkey : p.1 ∉ rest.map (fun q => q.1) := hnd.1
    have hrec := ih hnd.2
    rw [show close_by_connection rest connectionId =
        List.foldl
          (fun acc id =>
            match lookupTable acc.1 id with
            | none => acc
            | some s => (eraseTable acc.1 id, acc.2 ++ s.taskId.toList))
          (rest, [])
          ((rest.filter (fun q => q.2.connection_id = connectionId)).map
            (fun q => q.1)) from rfl] at hrec
    have hsub : p.1 ∉ (rest.filter
        (fun q => q.2.connection_id = connectionId)).map (fun q => q.1) := by
      intro hmem
      apply hkey
      obtain ⟨q, hq, hqe⟩ := List.mem_map.mp hmem
      exact hqe ▸ List.mem_map_of_mem (fun q => q.1) (List.mem_of_mem_filter hq)
    by_cases hp : p.2.connection_id = connectionId
    · have hfilpos : (p :: rest).filter
          (fun q => q.2.connection_id = connectionId) =
          p :: rest.filter (fun q => q.2.connection_id = connectionId) :=
        List.filter_cons_of_pos (by simp [hp])
      have hfilneg : (p :: rest).filter
          (fun q => ¬ q.2.connection_id = connectionId) =
          rest.filter (fun q => ¬ q.2.connection_id = connectionId) :=
        List.filter_cons_of_neg (by simp [hp])
      simp only [close_by_connection]
      rw [hfilpos, hfilneg, List.map_cons]
      simp only [List.foldl_cons, lookupTable_cons_self p rest p.1 rfl]
      rw [eraseTable_cons_self p rest p.1 rfl, eraseTable_of_not_mem rest p.1 hkey]
      rw [cbc_fold_acc, hrec]
      cases ht : p.2.taskId with
      | none => simp [Option.toList, List.reduceOption_cons_of_none, ht]
      | some v => simp [Option.toList, List.reduceOption_cons_of_some, ht]
    · have hfilpos : (p :: rest).filter
          (fun q => q.2.connection_id = connectionId) =
          rest.filter (fun q => q.2.connection_id = connectionId) :=
        List.filter_cons_of_neg (by simp [hp])
      have hfilneg : (p :: rest).filter
          (fun q => ¬ q.2.connection_id = connectionId) =
          p :: rest.filter (fun q => ¬ q.2.connection_id = connectionId) :=
        List.filter_cons_of_pos (by simp [hp])
      simp only [close_by_connection]
      rw [hfilpos, hfilneg]
      rw [cbc_fold_skip _ p rest [] hsub, hrec]

/-! ### C6 -/

/-- C6: `ssh_disconnect(id)` first closes every terminal session owned by
connection `id` — removing it from the terminal map and aborting its
reader/driver task handle — and then removes the connection entry, so the
remaining terminal map is exactly the sessions of other connections, and
the connection id no longer resolves; afterwards (and for any absent id)
the SFTP helper fails with "Connection {id} not found" and the
terminal-create lookup fails with "Connection {id} not found or session
closed". -/
theorem C6_disconnect_closes_then_removes :
    ∀ (connections : List (String × ConnHandleM))
      (sessions : List (String × PtySessionM)) (id : String),
      (sessions.map (fun p => p.1)).Nodup →
      (ssh_disconnect connections sessions id).2.1 =
        sessions.filter (fun p => ¬ p.2.connection_id = id) ∧
      (ssh_disconnect connections sessions id).2.2 =
        ((sessions.filter (fun p => p.2.connection_id = id)).map
          (fun p => p.2.taskId)).reduceOption ∧
      (∀ p ∈ (ssh_disconnect connections sessions id).2.1,
        ¬ p.2.connection_id = id) ∧
      (∀ p ∈ sessions, p.2.connection_id = id → ∀ t, p.2.taskId = some t →
        t ∈ (ssh_disconnect connections sessions id).2.2) ∧
      lookupTable (ssh_disconnect connections sessions id).1 id = none ∧
      get_sftp (ssh_disconnect connections sessions id).1 id =
        .error ("Connection " ++ id ++ " not found") ∧
      terminal_create_lookup (ssh_disconnect connections sessions id).1 id =
        .error ("Connection " ++ id ++ " not found or session closed") ∧
      (∀ (conns2 : List (String × ConnHandleM)) (cid2 : String),
        lookupTable conns2 cid2 = none →
        get_sftp conns2 cid2 = .error ("Connection " ++ cid2 ++ " not found") ∧
        terminal_create_lookup conns2 cid2 =
          .error ("Connection " ++ cid2 ++ " not found or session closed")) := by
  intro connections sessions id hnd
  have hcbc := close_by_connection_spec sessions id hnd
  have h1 : (ssh_disconnect connections sessions id).2.1 =
      sessions.filter (fun p => ¬ p.2.connection_id = id) := by
    simp only [ssh_disconnect, hcbc]
  have h2 : (ssh_disconnect connections sessions id).2.2 =
      ((sessions.filter (fun p => p.2.connection_id = id)).map
        (fun p => p.2.taskId)).reduceOption := by
    simp only [ssh_disconnect, hcbc]
  have hconn : (ssh_disconnect connections sessions id).1 =
      eraseTable connections id := by
    simp only [ssh_disconnect]
  refine ⟨h1, h2, ?_, ?_, ?_, ?_, ?_, ?_⟩
  · intro p hp
    rw [h1] at hp
    have := List.of_mem_filter hp
    simpa using this
  · intro p hp hcid t ht
    rw [h2, List.reduceOption_mem_iff]
    have hmem : p ∈ sessions.filter (fun q => q.2.connection_id = id) :=
      List.mem_filter.mpr ⟨hp, by simpa using hcid⟩
    have hmap : p.2.taskId ∈ (sessions.filter
        (fun q => q.2.connection_id = id)).map (fun q => q.2.taskId) :=
      List.mem_map_of_mem _ hmem
    rw [ht] at hmap
    exact hmap
  · rw [hconn]; exact lookupTable_eraseTable_self ..
  · rw [hconn]
    simp [get_sftp, lookupTable_eraseTable_self]
  · rw [hconn]
    simp [terminal_create_lookup, lookupTable_eraseTable_self]
  · intro conns2 cid2 hnone
    exact ⟨by simp [get_sftp, hnone], by simp [terminal_create_lookup, hnone]⟩

/-- C6 witness: disconnecting "c1" with two terminals, one owned by "c1"
(task handle 3) and one by "c2" (task handle 4), keeps only the "c2"
terminal, aborts task 3, removes the connection entry, and subsequent
lookups of "c1" fail with the not-found errors. -/
theorem C6_witness :
    ([("t1", (⟨"t1", "c1", false, some 3⟩ : PtySessionM)),
        ("t2", ⟨"t2", "c2", true, some 4⟩)].map (fun p => p.1)).Nodup ∧
      (ssh_disconnect [("c1", (⟨true, true, none⟩ : ConnHandleM))]
        [("t1", ⟨"t1", "c1", false, some 3⟩), ("t2", ⟨"t2", "c2", true, some 4⟩)]
        "c1").2.1 =
        [("t2", ⟨"t2", "c2", true, some 4⟩)] ∧
      (ssh_disconnect [("c1", ⟨true, true, none⟩)]
        [("t1", ⟨"t1", "c1", false, some 3⟩), ("t2", ⟨"t2", "c2", true, some 4⟩)]
        "c1").2.2 = [3] ∧
      get_sftp (ssh_disconnect [("c1", ⟨true, true, none⟩)]
        [("t1", ⟨"t1", "c1", false, some 3⟩), ("t2", ⟨"t2", "c2", true, some 4⟩)]
        "c1").1 "c1" = .error "Connection c1 not found" := by
  obtain ⟨h1, h2, _h3, _h4, _h5, h6, _h7, _h8⟩ :=
    C6_disconnect_closes_then_removes [("c1", ⟨true, true, none⟩)]
      [("t1", ⟨"t1", "c1", false, some 3⟩), ("t2", ⟨"t2", "c2", true, some 4⟩)]
      "c1" (by decide)
  refine ⟨by decide, ?_, ?_, ?_⟩
  · rw [h1]; decide
  · rw [h2]; decide
  · rw [show ("Connection c1 not found") = ("Connection " ++ "c1" ++ " not found")
      from rfl]
    exact h6

/-! ### Ordering lemmas for the listing sort (C7) -/

theorem bytesCmp_swap : ∀ a b : List Nat, bytesCmp b a = (bytesCmp a b).swap := by
  intro a
  induction a with
  | nil => intro b; cases b <;> rfl
  | cons x xs ih =>
    intro b
    cases b with
    | nil => rfl
    | cons y ys =>
      simp only [bytesCmp]
      by_cases hxy : x < y
      · have hyx : ¬ y < x := by omega
        simp [hxy, hyx, Ordering.swap]
      · by_cases hyx : y < x
        · simp [hxy, hyx, Ordering.swap]
        · simp [hxy, hyx, ih ys]

theorem bytesCmp_le_trans :
    ∀ a b c : List Nat, bytesCmp a b ≠ .gt → bytesCmp b c ≠ .gt →
      bytesCmp a c ≠ .gt := by
  intro a
  induction a with
  | nil =>
    intro b c _ _
    cases c <;> simp [bytesCmp]
  | cons x xs ih =>
    intro b c hab hbc
    cases b with
    | nil => simp [bytesCmp] at hab
    | cons y ys =>
      cases c with
      | nil => simp [bytesCmp] at hbc
      | cons z zs =>
        simp only [bytesCmp] at hab hbc ⊢
        by_cases hxy : x < y
        · have hyx : ¬ y < x := by omega
          by_cases hyz : y < z
          · have hxz : x < z := by omega
            simp [hxz]
          · by_cases hzy : z < y
            · simp [hyz, hzy] at hbc
            · have hyz2 : y = z := by omega
              have hxz : x < z := by omega
              simp [hxz]
        · by_cases hyx : y < x
          · simp [hxy, hyx] at hab
          · have hxy2 : x = y := by omega
            subst hxy2
            by_cases hxz : x < z
            · simp [hxz]
            · by_cases hzx : z < x
              · simp [hxz, hzx] at hbc
              · have hxz2 : x = z := by omega
                subst hxz2
                simp [hxz, hzx] at hab hbc ⊢
                exact ih ys zs hab hbc

theorem fileCmp_swap (a b : FileEntryM) : fileCmp b a = (fileCmp a b).swap := by
  by_cases da : a.ftype = "d" <;> by_cases db : b.ftype = "d"
  · simp only [fileCmp, da, db]
    simp [bytesCmp_swap a.name b.name]
  · simp [fileCmp, da, db, Ordering.swap]
  · simp [fileCmp, da, db, Ordering.swap]
  · simp only [fileCmp, da, db]
    simp [bytesCmp_swap a.name b.name]

theorem fileCmp_le_trans (a b c : FileEntryM) (hab : fileCmp a b ≠ .gt)
    (hbc : fileCmp b c ≠ .gt) : fileCmp a c ≠ .gt := by
  by_cases da : a.ftype = "d" <;> by_cases db : b.ftype = "d" <;>
    by_cases dc : c.ftype = "d"
  · simp only [fileCmp, da, db, dc] at hab hbc ⊢
    simp at hab hbc ⊢
    exact bytesCmp_le_trans a.name b.name c.name hab hbc
  · simp [fileCmp, da, db, dc]
  · simp [fileCmp, da, db, dc] at hbc
  · simp [fileCmp, da, db, dc]
  · simp [fileCmp, da, db, dc] at hab
  · simp [fileCmp, da, db, dc] at hab
  · simp [fileCmp, da, db, dc] at hbc
  · simp only [fileCmp, da, db, dc] at hab hbc ⊢
    simp at hab hbc ⊢
    exact bytesCmp_le_trans a.name b.name c.name hab hbc

/-- The sorted output of the listing sort, as a Pairwise fact on the
comparator relation. -/
theorem sortEntries_pairwise (l : List FileEntryM) :
    (sortEntries l).Pairwise (fun a b => fileCmp a b ≠ .gt) := by
  have h := @List.sorted_mergeSort FileEntryM
    (fun a b => decide (fileCmp a b ≠ .gt))
    (fun a b c hab hbc => by
      simp only [decide_eq_true_eq] at hab hbc ⊢
      exact fileCmp_le_trans a b c hab hbc)
    (fun a b => by
      simp only [Bool.or_eq_true, decide_eq_true_eq]
      by_cases hab : fileCmp a b = .gt
      · right
        rw [fileCmp_swap a b, hab]
        simp [Ordering.swap]
      · left; exact hab)
    l
  have h2 : (sortEntries l).Pairwise
      (fun a b => decide (fileCmp a b ≠ .gt) = true) := h
  exact h2.imp (fun {a b} hab => by simpa using hab)

/-! ### C7 -/

/-- C7: both `list_local` and `list_remote` (the two branches of
`fs_list`) return entries ordered with every directory (type "d") before
every non-directory, and byte-lexicographically non-decreasing names
within each class; remote listings contain no "." or ".." entry. -/
theorem C7_listings_sorted :
    ∀ (entriesL : List LocalRawEntry) (entriesR : List RemoteRawEntry),
      (list_local entriesL).Pairwise
        (fun a b => ¬ (¬ a.ftype = "d" ∧ b.ftype = "d")) ∧
      (list_local entriesL).Pairwise
        (fun a b => a.ftype = b.ftype → bytesCmp a.name b.name ≠ .gt) ∧
      (list_remote entriesR).Pairwise
        (fun a b => ¬ (¬ a.ftype = "d" ∧ b.ftype = "d")) ∧
      (list_remote entriesR).Pairwise
        (fun a b => a.ftype = b.ftype → bytesCmp a.name b.name ≠ .gt) ∧
      ((list_remote entriesR).all
        (fun e => ¬ (e.name = dotName ∨ e.name = dotdotName))) = true := by
  intro entriesL entriesR
  have hdirs : ∀ a b : FileEntryM, fileCmp a b ≠ .gt →
      ¬ (¬ a.ftype = "d" ∧ b.ftype = "d") := by
    intro a b h hcontra
    apply h
    simp [fileCmp, hcontra.1, hcontra.2]
  have hlex : ∀ a b : FileEntryM, fileCmp a b ≠ .gt →
      (a.ftype = b.ftype → bytesCmp a.name b.name ≠ .gt) := by
    intro a b h heq
    by_cases da : a.ftype = "d"
    · have db : b.ftype = "d" := heq ▸ da
      simpa [fileCmp, da, db] using h
    · have db : ¬ b.ftype = "d" := heq ▸ da
      simpa [fileCmp, da, db] using h
  refine ⟨(sortEntries_pairwise _).imp (fun {a b} h => hdirs a b h),
    (sortEntries_pairwise _).imp (fun {a b} h => hlex a b h),
    (sortEntries_pairwise _).imp (fun {a b} h => hdirs a b h),
    (sortEntries_pairwise _).imp (fun {a b} h => hlex a b h), ?_⟩
  rw [List.all_eq_true]
  intro e he
  have he2 : e ∈ sortEntries ((entriesR.filter
      (fun r => ¬ (r.name = dotName ∨ r.name = dotdotName))).map remoteEntry) := he
  rw [sortEntries, List.mem_mergeSort] at he2
  obtain ⟨r, hr, hre⟩ := List.mem_map.mp he2
  have hrprop := List.of_mem_filter hr
  simp only [decide_eq_true_eq] at hrprop
  have hname : e.name = r.name := by
    rw [← hre]; rfl
  simp only [decide_eq_true_eq, hname]
  exact hrprop

end Zync
